import Mathlib

/-!
Verification of the extended semantic analyzer
(src/DB/src/compiler/semantic/extended_analyzer.py) against its design
specification.  The Python data model (src/DB/src/common/types.py) and the
analyzer are embedded shallowly: every mutable-state method becomes a Lean
function threading an explicit `AnalyzerState`, and Python exceptions
(`SemanticError`, and the `TypeError` that an arity-mismatched call raises)
become an `Except`-style result paired with the state at the raise point.
-/

namespace DB

/-- The closed set of AST node kinds (`ASTNodeType` in types.py). -/
inductive ASTNodeType where
  | SELECT_STMT
  | COLUMN_LIST
  | TABLE_NAME
  | WHERE_CLAUSE
  | CONDITION
  | IDENTIFIER
  | LITERAL
  | JOIN_CLAUSE
  | JOIN_TYPE
  | ON_CLAUSE
  | GROUP_BY_CLAUSE
  | HAVING_CLAUSE
  | AGGREGATE_FUNCTION
  | ORDER_BY_CLAUSE
  | ORDER_SPEC
  | SUBQUERY
  | TABLE_REF
  | TABLE_ALIAS
deriving DecidableEq

/-- AST node (`ASTNode` in types.py): a kind, an optional string payload and
an ordered list of owned children. -/
inductive ASTNode where
  | mk (ty : ASTNodeType) (value : Option String) (children : List ASTNode)

/-- The `type` field of an AST node. -/
def ASTNode.type : ASTNode → ASTNodeType
  | .mk t _ _ => t

/-- The `value` field of an AST node (Python `Optional[str]`). -/
def ASTNode.value : ASTNode → Option String
  | .mk _ v _ => v

/-- The `children` field of an AST node. -/
def ASTNode.children : ASTNode → List ASTNode
  | .mk _ _ c => c

/-- A value stored in a quadruple field.  Python is dynamically typed: the
analyzer stores `None`, strings, or (for the final SELECT) the raw column
list, whose entries come from `ASTNode.value` and may themselves be `None`. -/
inductive Arg where
  | none
  | str (s : String)
  | strList (l : List (Option String))
deriving DecidableEq

/-- Convert a Python `Optional[str]` to the quadruple field it is stored as. -/
def Arg.ofOpt : Option String → Arg
  | Option.none => Arg.none
  | some s => Arg.str s

/-- Quadruple `(op, arg1, arg2, result)` from types.py.  The `op` is
`Optional` because the aggregate branch passes `child.value` (possibly
`None`) as the operator. -/
structure Quadruple where
  op : Option String
  arg1 : Arg
  arg2 : Arg
  result : Arg
deriving DecidableEq

/-- Symbol-table entry (`Symbol` in types.py).  The analyzer stores
`child.value` as the name, so the name may be `None`. -/
structure Symbol where
  name : Option String
  type : String
  scope : String
  line : Nat
  column : Nat
deriving DecidableEq

/-- `SymbolTable.add_symbol`: Python dict assignment `symbols[name] = symbol`,
keyed by the symbol name: overwrite in place if the key exists, else append
(Python dicts preserve insertion order). -/
def dict_set (k : Option String) (v : Symbol) :
    List (Option String × Symbol) → List (Option String × Symbol)
  | [] => [(k, v)]
  | (k', v') :: rest =>
      if k' = k then (k, v) :: rest else (k', v') :: dict_set k v rest

/-- The two exception kinds the analyzer can raise: its own `SemanticError`,
and the `TypeError` Python raises when `_emit` is called with one argument
too many (see `analyze_condition`) or when `str.join` meets a `None`
(see `comma_join`). -/
inductive PyError where
  | semanticError (msg : String)
  | typeError (msg : String)
deriving DecidableEq

/-- The mutable instance state of `ExtendedSemanticAnalyzer`: the symbol
table, the quadruple buffer and the two counters, in declaration order. -/
structure AnalyzerState where
  symbol_table : List (Option String × Symbol)
  quadruples : List Quadruple
  temp_counter : Nat
  label_counter : Nat
deriving DecidableEq

/-- `__init__`: fresh instance state. -/
def init_state : AnalyzerState :=
  { symbol_table := [], quadruples := [], temp_counter := 0, label_counter := 0 }

/-- `_generate_temp`: increment the counter, return `T<counter>`. -/
def generate_temp (st : AnalyzerState) : String × AnalyzerState :=
  let c := st.temp_counter + 1
  ("T" ++ Nat.repr c, { st with temp_counter := c })

/-- `_generate_label`: increment the counter, return `L<counter>`. -/
def generate_label (st : AnalyzerState) : String × AnalyzerState :=
  let c := st.label_counter + 1
  ("L" ++ Nat.repr c, { st with label_counter := c })

/-- `_emit`: append one quadruple to the buffer. -/
def emit (op : Option String) (arg1 arg2 result : Arg) (st : AnalyzerState) :
    AnalyzerState :=
  { st with quadruples := st.quadruples ++ [⟨op, arg1, arg2, result⟩] }

/-- The `table_info` accumulator built by `_analyze_from_clause`.  Its
`aliases` dict is created but never read or written afterwards, so it is
omitted. -/
structure TableInfo where
  main_table : Option String
  tables : List (Option String)
deriving DecidableEq

/-- The loop body of `_analyze_from_clause`: for every `TABLE_NAME` child,
record it as the main table (last one wins), append it to the table list and
register a `TABLE` symbol with scope `GLOBAL` at position 0:0. -/
def analyze_from_clause_loop :
    List ASTNode → TableInfo → AnalyzerState → TableInfo × AnalyzerState
  | [], ti, st => (ti, st)
  | c :: rest, ti, st =>
      match c.type with
      | .TABLE_NAME =>
          let table_name := c.value
          let ti' := { main_table := table_name,
                       tables := ti.tables ++ [table_name] : TableInfo }
          let st' := { st with
            symbol_table :=
              dict_set table_name
                { name := table_name, type := "TABLE", scope := "GLOBAL",
                  line := 0, column := 0 } st.symbol_table }
          analyze_from_clause_loop rest ti' st'
      | _ => analyze_from_clause_loop rest ti st

/-- `_analyze_from_clause`. -/
def analyze_from_clause (node : ASTNode) (st : AnalyzerState) :
    TableInfo × AnalyzerState :=
  analyze_from_clause_loop node.children
    { main_table := Option.none, tables := [] } st

/-- The `select_info['columns']` accumulator: starts as an empty list and is
either a list of entries (entries are `child.value`, hence optional strings)
or the wildcard string `"*"`. -/
inductive Columns where
  | star
  | cols (l : List (Option String))
deriving DecidableEq

/-- The value `select_info['columns']` contributes to the final SELECT
quadruple: the string `"*"` or the raw list. -/
def Columns.toArg : Columns → Arg
  | .star => Arg.str "*"
  | .cols l => Arg.strList l

/-- The `select_info` accumulator built by `_analyze_select_list`. -/
structure SelectInfo where
  columns : Columns
  aggregates : List (Option String × String)
  has_aggregates : Bool
deriving DecidableEq

/-- `_get_aggregate_column`: simplified implementation, returns the fixed
placeholder column name. -/
def get_aggregate_column (agg_node : ASTNode) : String :=
  "value"

/-- The loop body of `_analyze_column_list`.  An `IDENTIFIER` child with
value `"*"` replaces the whole accumulator by the wildcard; any other
identifier is appended if the accumulator is still a list and otherwise
restarts the list with just that column.  An `AGGREGATE_FUNCTION` child
allocates a fresh temporary, emits the aggregate quadruple (`COUNT` uses a
fixed `*` argument, anything else the placeholder column) and appends the
temporary to the column accumulator the same way. -/
def analyze_column_list_loop :
    List ASTNode → SelectInfo → AnalyzerState → SelectInfo × AnalyzerState
  | [], si, st => (si, st)
  | c :: rest, si, st =>
      match c.type with
      | .IDENTIFIER =>
          if c.value = some "*" then
            analyze_column_list_loop rest { si with columns := Columns.star } st
          else
            let columns' :=
              match si.columns with
              | .cols l => Columns.cols (l ++ [c.value])
              | .star => Columns.cols [c.value]
            analyze_column_list_loop rest { si with columns := columns' } st
      | .AGGREGATE_FUNCTION =>
          let func_name := c.value
          let (agg_temp, st₁) := generate_temp st
          let st₂ :=
            if func_name = some "COUNT" then
              emit (some "COUNT") (Arg.str "*") Arg.none (Arg.str agg_temp) st₁
            else
              emit func_name (Arg.str (get_aggregate_column c)) Arg.none
                (Arg.str agg_temp) st₁
          let columns' :=
            match si.columns with
            | .cols l => Columns.cols (l ++ [some agg_temp])
            | .star => Columns.cols [some agg_temp]
          analyze_column_list_loop rest
            { columns := columns',
              aggregates := si.aggregates ++ [(func_name, agg_temp)],
              has_aggregates := true } st₂
      | _ => analyze_column_list_loop rest si st

/-- `_analyze_select_list`: analyze the first `COLUMN_LIST` child (the
Python loop breaks after the first match) starting from a fresh
`select_info`. -/
def analyze_select_list (node : ASTNode) (st : AnalyzerState) :
    SelectInfo × AnalyzerState :=
  match node.children.find? (fun c => c.type = ASTNodeType.COLUMN_LIST) with
  | some c =>
      analyze_column_list_loop c.children
        { columns := Columns.cols [], aggregates := [], has_aggregates := false } st
  | Option.none =>
      ({ columns := Columns.cols [], aggregates := [], has_aggregates := false }, st)

/-- The record returned by `_analyze_join_condition`. -/
structure JoinCondition where
  left : String
  right : String
  op : String
deriving DecidableEq

/-- `_analyze_join_condition`: simplified implementation, returns the fixed
placeholder condition. -/
def analyze_join_condition (node : ASTNode) : JoinCondition :=
  { left := "table1.id", right := "table2.id", op := "EQ" }

/-- The collection loop of `_analyze_join_clause`: remember the last
`TABLE_NAME` child value as the join table (also appending it to the shared
table list) and resolve any `ON_CLAUSE` child. -/
def analyze_join_clause_loop :
    List ASTNode → Option String → Option JoinCondition → TableInfo →
    Option String × Option JoinCondition × TableInfo
  | [], jt, jc, ti => (jt, jc, ti)
  | c :: rest, jt, jc, ti =>
      match c.type with
      | .TABLE_NAME =>
          analyze_join_clause_loop rest c.value jc
            { ti with tables := ti.tables ++ [c.value] }
      | .ON_CLAUSE =>
          analyze_join_clause_loop rest jt (some (analyze_join_condition c)) ti
      | _ => analyze_join_clause_loop rest jt jc ti

/-- Python truthiness of the `join_table` variable (`None` and the empty
string are falsy). -/
def str_truthy : Option String → Bool
  | Option.none => false
  | some s => !(s == "")

/-- `_analyze_join_clause`: collect the join table and condition; if both
are truthy, emit a `JOIN` quadruple (main table, joined table, fresh
temporary) immediately followed by an `ON` quadruple. -/
def analyze_join_clause (node : ASTNode) (ti : TableInfo) (st : AnalyzerState) :
    TableInfo × AnalyzerState :=
  match analyze_join_clause_loop node.children Option.none Option.none ti with
  | (join_table, join_condition, ti') =>
      if str_truthy join_table ∧ join_condition.isSome then
        match join_condition with
        | some cond =>
            let (join_temp, st₁) := generate_temp st
            let st₂ := emit (some "JOIN") (Arg.ofOpt ti'.main_table)
              (Arg.ofOpt join_table) (Arg.str join_temp) st₁
            let st₃ := emit (some "ON") (Arg.str cond.left) (Arg.str cond.right)
              (Arg.str cond.op) st₂
            (ti', st₃)
        | Option.none => (ti', st)
      else (ti', st)

/-- `_analyze_join_clauses`: process every `JOIN_CLAUSE` child in order,
threading the shared `table_info`. -/
def analyze_join_clauses_loop :
    List ASTNode → TableInfo → AnalyzerState → TableInfo × AnalyzerState
  | [], ti, st => (ti, st)
  | c :: rest, ti, st =>
      if c.type = ASTNodeType.JOIN_CLAUSE then
        match analyze_join_clause c ti st with
        | (ti', st') => analyze_join_clauses_loop rest ti' st'
      else analyze_join_clauses_loop rest ti st

/-- `_analyze_condition`: the source first allocates a fresh temporary and
then calls `self._emit('CONDITION', 'column', '>', 'value', condition_temp)`
— five positional arguments for the four-parameter `_emit`, so Python raises
`TypeError` at that call and the condition temporary is never returned. -/
def analyze_condition (node : ASTNode) (st : AnalyzerState) :
    Except PyError String × AnalyzerState :=
  match generate_temp st with
  | (condition_temp, st₁) =>
      (Except.error (PyError.typeError
        "_emit() takes 5 positional arguments but 6 were given"), st₁)

/-- The loop body of `_analyze_where_clause`: on every `WHERE_CLAUSE` child,
resolve the condition and, when a truthy temporary comes back, emit a
`WHERE` quadruple referencing it. -/
def analyze_where_clause_loop :
    List ASTNode → AnalyzerState → Except PyError Unit × AnalyzerState
  | [], st => (Except.ok (), st)
  | c :: rest, st =>
      if c.type = ASTNodeType.WHERE_CLAUSE then
        match analyze_condition c st with
        | (Except.error e, st₁) => (Except.error e, st₁)
        | (Except.ok condition_temp, st₁) =>
            let st₂ :=
              if condition_temp ≠ "" then
                emit (some "WHERE") (Arg.str condition_temp) Arg.none Arg.none st₁
              else st₁
            analyze_where_clause_loop rest st₂
      else analyze_where_clause_loop rest st

/-- The loop body of `_analyze_having_clause`, same structure as `WHERE`. -/
def analyze_having_clause_loop :
    List ASTNode → AnalyzerState → Except PyError Unit × AnalyzerState
  | [], st => (Except.ok (), st)
  | c :: rest, st =>
      if c.type = ASTNodeType.HAVING_CLAUSE then
        match analyze_condition c st with
        | (Except.error e, st₁) => (Except.error e, st₁)
        | (Except.ok having_temp, st₁) =>
            let st₂ :=
              if having_temp ≠ "" then
                emit (some "HAVING") (Arg.str having_temp) Arg.none Arg.none st₁
              else st₁
            analyze_having_clause_loop rest st₂
      else analyze_having_clause_loop rest st

/-- The `group_info` accumulator of `_analyze_group_by_clause`; it is shared
across all `GROUP_BY_CLAUSE` children of one statement. -/
structure GroupInfo where
  columns : List (Option String)
  has_group_by : Bool
deriving DecidableEq

/-- Collect the values of the `IDENTIFIER` children of one `GROUP_BY_CLAUSE`
node, appended to the accumulated column list. -/
def collect_group_columns : List ASTNode → List (Option String) → List (Option String)
  | [], acc => acc
  | g :: rest, acc =>
      if g.type = ASTNodeType.IDENTIFIER then
        collect_group_columns rest (acc ++ [g.value])
      else collect_group_columns rest acc

/-- Python `','.join(columns)`: succeeds only when every entry is a string;
a `None` entry raises `TypeError`. -/
def comma_join : List (Option String) → Except PyError String
  | l =>
      match comma_join_strings l with
      | Except.ok parts => Except.ok (String.intercalate "," parts)
      | Except.error e => Except.error e
where
  comma_join_strings : List (Option String) → Except PyError (List String)
    | [] => Except.ok []
    | Option.none :: _ =>
        Except.error (PyError.typeError
          "sequence item: expected str instance, NoneType found")
    | some s :: rest =>
        match comma_join_strings rest with
        | Except.ok parts => Except.ok (s :: parts)
        | Except.error e => Except.error e

/-- The loop body of `_analyze_group_by_clause`: on every `GROUP_BY_CLAUSE`
child, mark `has_group_by`, collect its identifier columns into the shared
accumulator, and when the accumulator is non-empty allocate a fresh
temporary and emit one `GROUP_BY` quadruple whose `arg1` is the comma-joined
accumulated column list (the join raises `TypeError` on a `None` entry; the
temporary is allocated before the join is evaluated). -/
def analyze_group_by_clause_loop :
    List ASTNode → GroupInfo → AnalyzerState →
    Except PyError Unit × GroupInfo × AnalyzerState
  | [], gi, st => (Except.ok (), gi, st)
  | c :: rest, gi, st =>
      if c.type = ASTNodeType.GROUP_BY_CLAUSE then
        let gi₁ := { columns := collect_group_columns c.children gi.columns,
                     has_group_by := true : GroupInfo }
        if gi₁.columns ≠ [] then
          match generate_temp st with
          | (group_temp, st₁) =>
              match comma_join gi₁.columns with
              | Except.error e => (Except.error e, gi₁, st₁)
              | Except.ok joined =>
                  let st₂ := emit (some "GROUP_BY") (Arg.str joined) Arg.none
                    (Arg.str group_temp) st₁
                  analyze_group_by_clause_loop rest gi₁ st₂
        else analyze_group_by_clause_loop rest gi₁ st
      else analyze_group_by_clause_loop rest gi st

/-- Python `f"{value}"`: `None` renders as the string `None`. -/
def py_str_opt : Option String → String
  | some s => s
  | Option.none => "None"

/-- The direction scan inside `_analyze_order_by_clause`: the last
`IDENTIFIER` child whose value is `ASC` or `DESC` wins, defaulting to
`ASC`. -/
def direction_of : List ASTNode → String → String
  | [], d => d
  | sc :: rest, d =>
      if sc.type = ASTNodeType.IDENTIFIER then
        match sc.value with
        | some v =>
            if v = "ASC" ∨ v = "DESC" then direction_of rest v
            else direction_of rest d
        | Option.none => direction_of rest d
      else direction_of rest d

/-- Collect the `"<column> <direction>"` strings of the `ORDER_SPEC`
children of one `ORDER_BY_CLAUSE` node. -/
def collect_order_specs : List ASTNode → List String → List String
  | [], acc => acc
  | g :: rest, acc =>
      if g.type = ASTNodeType.ORDER_SPEC then
        let column_name := g.value
        let direction := direction_of g.children "ASC"
        collect_order_specs rest
          (acc ++ [py_str_opt column_name ++ " " ++ direction])
      else collect_order_specs rest acc

/-- The loop body of `_analyze_order_by_clause`: on every `ORDER_BY_CLAUSE`
child with a non-empty spec list, allocate a fresh temporary and emit one
`ORDER_BY` quadruple with the comma-joined specs. -/
def analyze_order_by_clause_loop : List ASTNode → AnalyzerState → AnalyzerState
  | [], st => st
  | c :: rest, st =>
      if c.type = ASTNodeType.ORDER_BY_CLAUSE then
        let order_specs := collect_order_specs c.children []
        if order_specs ≠ [] then
          match generate_temp st with
          | (order_temp, st₁) =>
              let st₂ := emit (some "ORDER_BY")
                (Arg.str (String.intercalate "," order_specs)) Arg.none
                (Arg.str order_temp) st₁
              analyze_order_by_clause_loop rest st₂
        else analyze_order_by_clause_loop rest st
      else analyze_order_by_clause_loop rest st

/-- `_analyze_select_statement`: the fixed clause order — `BEGIN` marker,
FROM, select list, JOIN clauses, WHERE, GROUP BY, HAVING, ORDER BY, then the
final `SELECT`, `OUTPUT` and `END` quadruples.  A raised exception aborts
the remainder of the pass. -/
def analyze_select_statement (node : ASTNode) (st : AnalyzerState) :
    Except PyError Unit × AnalyzerState :=
  let st₀ := emit (some "BEGIN") Arg.none Arg.none Arg.none st
  match analyze_from_clause node st₀ with
  | (table_info, st₁) =>
    match analyze_select_list node st₁ with
    | (select_info, st₂) =>
      match analyze_join_clauses_loop node.children table_info st₂ with
      | (table_info₁, st₃) =>
        match analyze_where_clause_loop node.children st₃ with
        | (Except.error e, st₄) => (Except.error e, st₄)
        | (Except.ok _, st₄) =>
          match analyze_group_by_clause_loop node.children
              { columns := [], has_group_by := false } st₄ with
          | (Except.error e, _, st₅) => (Except.error e, st₅)
          | (Except.ok _, _, st₅) =>
            match analyze_having_clause_loop node.children st₅ with
            | (Except.error e, st₆) => (Except.error e, st₆)
            | (Except.ok _, st₆) =>
              let st₇ := analyze_order_by_clause_loop node.children st₆
              match generate_temp st₇ with
              | (result_temp, st₈) =>
                  let st₉ := emit (some "SELECT") select_info.columns.toArg
                    (Arg.ofOpt table_info₁.main_table) (Arg.str result_temp) st₈
                  let stA := emit (some "OUTPUT") (Arg.str result_temp) Arg.none
                    Arg.none st₉
                  (Except.ok (), emit (some "END") Arg.none Arg.none Arg.none stA)

/-- Python `str(ASTNodeType.X)`, as interpolated into the unsupported-type
error message. -/
def enum_str : ASTNodeType → String
  | .SELECT_STMT => "ASTNodeType.SELECT_STMT"
  | .COLUMN_LIST => "ASTNodeType.COLUMN_LIST"
  | .TABLE_NAME => "ASTNodeType.TABLE_NAME"
  | .WHERE_CLAUSE => "ASTNodeType.WHERE_CLAUSE"
  | .CONDITION => "ASTNodeType.CONDITION"
  | .IDENTIFIER => "ASTNodeType.IDENTIFIER"
  | .LITERAL => "ASTNodeType.LITERAL"
  | .JOIN_CLAUSE => "ASTNodeType.JOIN_CLAUSE"
  | .JOIN_TYPE => "ASTNodeType.JOIN_TYPE"
  | .ON_CLAUSE => "ASTNodeType.ON_CLAUSE"
  | .GROUP_BY_CLAUSE => "ASTNodeType.GROUP_BY_CLAUSE"
  | .HAVING_CLAUSE => "ASTNodeType.HAVING_CLAUSE"
  | .AGGREGATE_FUNCTION => "ASTNodeType.AGGREGATE_FUNCTION"
  | .ORDER_BY_CLAUSE => "ASTNodeType.ORDER_BY_CLAUSE"
  | .ORDER_SPEC => "ASTNodeType.ORDER_SPEC"
  | .SUBQUERY => "ASTNodeType.SUBQUERY"
  | .TABLE_REF => "ASTNodeType.TABLE_REF"
  | .TABLE_ALIAS => "ASTNodeType.TABLE_ALIAS"

/-- `analyze`, on an arbitrary instance state: reset the quadruple buffer
and both counters (the symbol table is not reset), dispatch on the root
kind, and catch any exception at the boundary, converting it to an empty
result plus the reported failure.  The first component is what the caller
sees (the quadruple list and the reported error, if any); the second is the
instance state after the call. -/
def analyze_with (st : AnalyzerState) (ast : ASTNode) :
    (List Quadruple × Option PyError) × AnalyzerState :=
  let st₀ := { st with quadruples := [], temp_counter := 0, label_counter := 0 }
  if ast.type = ASTNodeType.SELECT_STMT then
    match analyze_select_statement ast st₀ with
    | (Except.ok _, st₁) => ((st₁.quadruples, Option.none), st₁)
    | (Except.error e, st₁) => (([], some e), st₁)
  else
    (([], some (PyError.semanticError
      ("Unsupported statement type: " ++ enum_str ast.type))), st₀)

/-- `analyze` on a fresh analyzer instance, the configuration every test
uses: returns the quadruple list and the reported failure, if any. -/
def analyze (ast : ASTNode) : List Quadruple × Option PyError :=
  (analyze_with init_state ast).1

/-! ## Derived characterizations

Pure functions of the AST that the state-threading loops above are proven to
compute, plus the lemmas establishing that correspondence. -/

/-- The `BEGIN` marker quadruple. -/
def begin_quad : Quadruple :=
  ⟨some "BEGIN", Arg.none, Arg.none, Arg.none⟩

/-- The `END` marker quadruple. -/
def end_quad : Quadruple :=
  ⟨some "END", Arg.none, Arg.none, Arg.none⟩

/-- The main-table name after scanning a child list: the value of the last
`TABLE_NAME` child, if any. -/
def mainTableOf : List ASTNode → Option String → Option String
  | [], m => m
  | c :: rest, m =>
      match c.type with
      | .TABLE_NAME => mainTableOf rest c.value
      | _ => mainTableOf rest m

/-- The children of the first `COLUMN_LIST` child of a node (empty if there
is none), i.e. the nodes `_analyze_column_list` iterates over. -/
def colChildren (node : ASTNode) : List ASTNode :=
  match node.children.find? (fun c => c.type = ASTNodeType.COLUMN_LIST) with
  | some c => c.children
  | Option.none => []

/-- Number of `AGGREGATE_FUNCTION` nodes in a child list (each consumes one
temporary). -/
def aggCount : List ASTNode → Nat
  | [] => 0
  | c :: rest =>
      match c.type with
      | .AGGREGATE_FUNCTION => aggCount rest + 1
      | _ => aggCount rest

/-- The aggregate quadruple emitted for an aggregate node with value `v` and
fresh temporary `t`. -/
def aggQuad (v : Option String) (t : String) : Quadruple :=
  if v = some "COUNT" then ⟨some "COUNT", Arg.str "*", Arg.none, Arg.str t⟩
  else ⟨v, Arg.str "value", Arg.none, Arg.str t⟩

/-- The quadruples the column-list loop emits when entered with temp counter
`k`: one aggregate quadruple per `AGGREGATE_FUNCTION` child, in order. -/
def aggDelta : List ASTNode → Nat → List Quadruple
  | [], _ => []
  | c :: rest, k =>
      match c.type with
      | .AGGREGATE_FUNCTION =>
          aggQuad c.value ("T" ++ Nat.repr (k + 1)) :: aggDelta rest (k + 1)
      | _ => aggDelta rest k

/-- Appending one entry to the column accumulator: onto the list if it is
still a list, restarting a fresh list if it had become the wildcard. -/
def colAppend : Columns → Option String → Columns
  | .cols l, v => Columns.cols (l ++ [v])
  | .star, v => Columns.cols [v]

/-- The column accumulator after the column-list loop, entered with
accumulator `cs` and temp counter `k`. -/
def colInfo : List ASTNode → Columns → Nat → Columns
  | [], cs, _ => cs
  | c :: rest, cs, k =>
      match c.type with
      | .IDENTIFIER =>
          if c.value = some "*" then colInfo rest Columns.star k
          else colInfo rest (colAppend cs c.value) k
      | .AGGREGATE_FUNCTION =>
          colInfo rest (colAppend cs (some ("T" ++ Nat.repr (k + 1)))) (k + 1)
      | _ => colInfo rest cs k

/-- The concrete input of the C4 witness: an explicit column before the
wildcard, nothing after it. -/
def c4_witness_ast : ASTNode :=
  ASTNode.mk ASTNodeType.SELECT_STMT Option.none
    [ASTNode.mk ASTNodeType.TABLE_NAME (some "students") [],
     ASTNode.mk ASTNodeType.COLUMN_LIST Option.none
       [ASTNode.mk ASTNodeType.IDENTIFIER (some "name") [],
        ASTNode.mk ASTNodeType.IDENTIFIER (some "*") []]]

/-- The concrete input of the C8 witness: SELECT COUNT, AVG FROM students
(spec scenario 2). -/
def c8_witness_ast : ASTNode :=
  ASTNode.mk ASTNodeType.SELECT_STMT Option.none
    [ASTNode.mk ASTNodeType.TABLE_NAME (some "students") [],
     ASTNode.mk ASTNodeType.COLUMN_LIST Option.none
       [ASTNode.mk ASTNodeType.AGGREGATE_FUNCTION (some "COUNT") [],
        ASTNode.mk ASTNodeType.AGGREGATE_FUNCTION (some "AVG") []]]

/-- The concrete JOIN clause of the C9 witness. -/
def c9_witness_node : ASTNode :=
  ASTNode.mk ASTNodeType.JOIN_CLAUSE Option.none
    [ASTNode.mk ASTNodeType.TABLE_NAME (some "courses") [],
     ASTNode.mk ASTNodeType.ON_CLAUSE Option.none []]

/-- Agreement of two analyzer states on everything `analyze` resets: the
quadruple buffer and the two counters.  Two states that agree on these may
differ only in the symbol table, the one field that persists across calls. -/
def coreEq (a b : AnalyzerState) : Prop :=
  a.quadruples = b.quadruples ∧ a.temp_counter = b.temp_counter ∧
    a.label_counter = b.label_counter

/-- The stream of the first `k` temporary names produced by successive
`_generate_temp` calls from a given analyzer state. -/
def gen_temps : Nat → AnalyzerState → List String × AnalyzerState
  | 0, st => ([], st)
  | k + 1, st =>
      match generate_temp st with
      | (t, st₁) =>
          match gen_temps k st₁ with
          | (ts, st₂) => (t :: ts, st₂)

theorem aggDelta_append (a b : List ASTNode) (k : Nat) :
    aggDelta (a ++ b) k = aggDelta a k ++ aggDelta b (k + aggCount a) := by
  induction a generalizing k with
  | nil => simp [aggDelta, aggCount]
  | cons c rest ih =>
    rcases c with ⟨ty, v, ch⟩
    cases ty
    case AGGREGATE_FUNCTION =>
      have harith : k + (aggCount rest + 1) = (k + 1) + aggCount rest := by omega
      simp only [List.cons_append, aggDelta, aggCount, ASTNode.type,
        List.append_eq, harith, ih]
    all_goals
      simp only [List.cons_append, aggDelta, aggCount, ASTNode.type,
        List.append_eq, ih]

theorem aggDelta_length (l : List ASTNode) (k : Nat) :
    (aggDelta l k).length = aggCount l := by
  induction l generalizing k with
  | nil => rfl
  | cons c rest ih =>
    rcases c with ⟨ty, v, ch⟩
    cases ty <;> simp [aggDelta, aggCount, ASTNode.type, ih]

theorem from_loop_snd (l : List ASTNode) (ti : TableInfo) (st : AnalyzerState) :
    ∃ T, (analyze_from_clause_loop l ti st).2 = { st with symbol_table := T } := by
  induction l generalizing ti st with
  | nil => exact ⟨st.symbol_table, rfl⟩
  | cons c rest ih =>
    rcases c with ⟨ty, v, ch⟩
    cases ty <;> simp only [analyze_from_clause_loop, ASTNode.type] <;>
      first
        | exact ih _ _
        | exact ih _ _

theorem from_loop_main (l : List ASTNode) (ti : TableInfo) (st : AnalyzerState) :
    (analyze_from_clause_loop l ti st).1.main_table = mainTableOf l ti.main_table := by
  induction l generalizing ti st with
  | nil => rfl
  | cons c rest ih =>
    rcases c with ⟨ty, v, ch⟩
    cases ty <;> simp [analyze_from_clause_loop, mainTableOf, ASTNode.type,
      ASTNode.value, ih]

theorem from_loop_no_table (l : List ASTNode) (ti : TableInfo) (st : AnalyzerState)
    (h : ∀ c ∈ l, c.type ≠ ASTNodeType.TABLE_NAME) :
    analyze_from_clause_loop l ti st = (ti, st) := by
  induction l generalizing ti st with
  | nil => rfl
  | cons c rest ih =>
    rcases c with ⟨ty, v, ch⟩
    have hc := h _ (List.mem_cons_self _ _)
    simp only [ASTNode.type] at hc
    have hrest := fun x hx => h x (List.mem_cons_of_mem _ hx)
    cases ty <;> simp only [analyze_from_clause_loop, ASTNode.type] <;>
      first
        | exact absurd rfl hc
        | exact ih _ _ hrest

theorem col_loop_snd (l : List ASTNode) (si : SelectInfo) (st : AnalyzerState) :
    (analyze_column_list_loop l si st).2 =
      { st with quadruples := st.quadruples ++ aggDelta l st.temp_counter,
                temp_counter := st.temp_counter + aggCount l } := by
  induction l generalizing si st with
  | nil => simp [analyze_column_list_loop, aggDelta, aggCount]
  | cons c rest ih =>
    rcases c with ⟨ty, v, ch⟩
    cases ty
    case IDENTIFIER =>
      by_cases hv : v = some "*" <;>
        simp [analyze_column_list_loop, ASTNode.type, ASTNode.value, hv,
          aggDelta, aggCount, ih]
    case AGGREGATE_FUNCTION =>
      by_cases hv : v = some "COUNT" <;>
        simp [analyze_column_list_loop, ASTNode.type, ASTNode.value, hv,
          generate_temp, emit, aggDelta, aggCount, aggQuad,
          get_aggregate_column, ih] <;>
        omega
    all_goals
      simp [analyze_column_list_loop, ASTNode.type, aggDelta, aggCount, ih]

theorem col_loop_columns (l : List ASTNode) (si : SelectInfo) (st : AnalyzerState) :
    (analyze_column_list_loop l si st).1.columns =
      colInfo l si.columns st.temp_counter := by
  induction l generalizing si st with
  | nil => rfl
  | cons c rest ih =>
    rcases c with ⟨ty, v, ch⟩
    cases ty
    case IDENTIFIER =>
      by_cases hv : v = some "*"
      · simp [analyze_column_list_loop, ASTNode.type, ASTNode.value, hv,
          colInfo, ih]
      · cases hcs : si.columns <;>
          simp [analyze_column_list_loop, ASTNode.type, ASTNode.value, hv,
            colInfo, colAppend, hcs, ih]
    case AGGREGATE_FUNCTION =>
      by_cases hv : v = some "COUNT" <;>
        cases hcs : si.columns <;>
          simp [analyze_column_list_loop, ASTNode.type, ASTNode.value, hv,
            generate_temp, emit, colInfo, colAppend, hcs, ih]
    all_goals
      simp [analyze_column_list_loop, ASTNode.type, colInfo, ih]

theorem join_clause_loop_main (l : List ASTNode) (jt : Option String)
    (jc : Option JoinCondition) (ti : TableInfo) :
    (analyze_join_clause_loop l jt jc ti).2.2.main_table = ti.main_table := by
  induction l generalizing jt jc ti with
  | nil => rfl
  | cons c rest ih =>
    rcases c with ⟨ty, v, ch⟩
    cases ty <;> simp [analyze_join_clause_loop, ASTNode.type, ih]

theorem join_clause_snd (node : ASTNode) (ti : TableInfo) (st : AnalyzerState) :
    ∃ d k, (analyze_join_clause node ti st).2 =
      { st with quadruples := st.quadruples ++ d, temp_counter := k } := by
  unfold analyze_join_clause
  rcases analyze_join_clause_loop node.children Option.none Option.none ti with
    ⟨jt, jc, ti'⟩
  by_cases hc : str_truthy jt ∧ jc.isSome
  · cases jc with
    | none => simp at hc
    | some cond =>
        refine ⟨[⟨some "JOIN", Arg.ofOpt ti'.main_table, Arg.ofOpt jt,
            Arg.str ("T" ++ Nat.repr (st.temp_counter + 1))⟩,
          ⟨some "ON", Arg.str cond.left, Arg.str cond.right, Arg.str cond.op⟩],
          st.temp_counter + 1, ?_⟩
        simp [hc, generate_temp, emit]
  · refine ⟨[], st.temp_counter, ?_⟩
    simp [hc]

theorem join_clause_main (node : ASTNode) (ti : TableInfo) (st : AnalyzerState) :
    (analyze_join_clause node ti st).1.main_table = ti.main_table := by
  unfold analyze_join_clause
  rcases h : analyze_join_clause_loop node.children Option.none Option.none ti with
    ⟨jt, jc, ti'⟩
  have hm : ti'.main_table = ti.main_table := by
    have := join_clause_loop_main node.children Option.none Option.none ti
    rw [h] at this
    exact this
  by_cases hc : str_truthy jt ∧ jc.isSome
  · cases jc with
    | none => simp at hc
    | some cond => simp [hc, generate_temp, emit, hm]
  · simp [hc, hm]

theorem joins_loop_snd (l : List ASTNode) (ti : TableInfo) (st : AnalyzerState) :
    ∃ d k, (analyze_join_clauses_loop l ti st).2 =
      { st with quadruples := st.quadruples ++ d, temp_counter := k } := by
  induction l generalizing ti st with
  | nil => exact ⟨[], st.temp_counter, by simp [analyze_join_clauses_loop]⟩
  | cons c rest ih =>
    by_cases hc : c.type = ASTNodeType.JOIN_CLAUSE
    · rcases hj : analyze_join_clause c ti st with ⟨ti', st'⟩
      obtain ⟨d₁, k₁, hd₁⟩ := join_clause_snd c ti st
      rw [hj] at hd₁
      have hst' : st' =
          { st with quadruples := st.quadruples ++ d₁, temp_counter := k₁ } := hd₁
      obtain ⟨d₂, k₂, hd₂⟩ := ih ti' st'
      refine ⟨d₁ ++ d₂, k₂, ?_⟩
      simp only [analyze_join_clauses_loop, hc, if_pos, hj]
      rw [hd₂, hst']
      simp
    · simp only [analyze_join_clauses_loop, hc, if_neg, not_false_iff]
      exact ih ti st

theorem joins_loop_main (l : List ASTNode) (ti : TableInfo) (st : AnalyzerState) :
    (analyze_join_clauses_loop l ti st).1.main_table = ti.main_table := by
  induction l generalizing ti st with
  | nil => rfl
  | cons c rest ih =>
    by_cases hc : c.type = ASTNodeType.JOIN_CLAUSE
    · rcases hj : analyze_join_clause c ti st with ⟨ti', st'⟩
      have hmp := join_clause_main c ti st
      rw [hj] at hmp
      have hm : ti'.main_table = ti.main_table := hmp
      simp only [analyze_join_clauses_loop, hc, if_pos, hj]
      rw [ih ti' st', hm]
    · simp only [analyze_join_clauses_loop, hc, if_neg, not_false_iff]
      exact ih ti st

theorem where_loop_ok_state (l : List ASTNode) (st : AnalyzerState)
    (u : Unit) (st' : AnalyzerState)
    (h : analyze_where_clause_loop l st = (Except.ok u, st')) : st' = st := by
  induction l generalizing st with
  | nil => simpa [analyze_where_clause_loop] using (congrArg Prod.snd h).symm
  | cons c rest ih =>
    by_cases hc : c.type = ASTNodeType.WHERE_CLAUSE
    · simp [analyze_where_clause_loop, hc, analyze_condition, generate_temp] at h
    · simp only [analyze_where_clause_loop, hc, if_neg, not_false_iff] at h
      exact ih st h

theorem where_loop_no_where (l : List ASTNode) (st : AnalyzerState)
    (h : ∀ c ∈ l, c.type ≠ ASTNodeType.WHERE_CLAUSE) :
    analyze_where_clause_loop l st = (Except.ok (), st) := by
  induction l generalizing st with
  | nil => rfl
  | cons c rest ih =>
    have hc := h _ (List.mem_cons_self _ _)
    simp only [analyze_where_clause_loop, hc, if_neg, not_false_iff]
    exact ih st (fun x hx => h x (List.mem_cons_of_mem _ hx))

theorem having_loop_ok_state (l : List ASTNode) (st : AnalyzerState)
    (u : Unit) (st' : AnalyzerState)
    (h : analyze_having_clause_loop l st = (Except.ok u, st')) : st' = st := by
  induction l generalizing st with
  | nil => simpa [analyze_having_clause_loop] using (congrArg Prod.snd h).symm
  | cons c rest ih =>
    by_cases hc : c.type = ASTNodeType.HAVING_CLAUSE
    · simp [analyze_having_clause_loop, hc, analyze_condition, generate_temp] at h
    · simp only [analyze_having_clause_loop, hc, if_neg, not_false_iff] at h
      exact ih st h

theorem having_loop_no_having (l : List ASTNode) (st : AnalyzerState)
    (h : ∀ c ∈ l, c.type ≠ ASTNodeType.HAVING_CLAUSE) :
    analyze_having_clause_loop l st = (Except.ok (), st) := by
  induction l generalizing st with
  | nil => rfl
  | cons c rest ih =>
    have hc := h _ (List.mem_cons_self _ _)
    simp only [analyze_having_clause_loop, hc, if_neg, not_false_iff]
    exact ih st (fun x hx => h x (List.mem_cons_of_mem _ hx))

theorem group_loop_ok_state (l : List ASTNode) (gi : GroupInfo) (st : AnalyzerState)
    (u : Unit) (gi' : GroupInfo) (st' : AnalyzerState)
    (h : analyze_group_by_clause_loop l gi st = (Except.ok u, gi', st')) :
    ∃ d k, st' = { st with quadruples := st.quadruples ++ d, temp_counter := k } := by
  induction l generalizing gi st with
  | nil =>
    refine ⟨[], st.temp_counter, ?_⟩
    have := congrArg (fun p => p.2.2) h
    simp [analyze_group_by_clause_loop] at this
    simp [← this]
  | cons c rest ih =>
    by_cases hc : c.type = ASTNodeType.GROUP_BY_CLAUSE
    · by_cases hcols :
          collect_group_columns c.children gi.columns = ([] : List (Option String))
      · simp [analyze_group_by_clause_loop, hc, hcols] at h
        exact ih _ _ h
      · cases hj : comma_join (collect_group_columns c.children gi.columns) with
        | error e =>
            simp [analyze_group_by_clause_loop, hc, hcols, generate_temp, hj] at h
        | ok joined =>
            simp [analyze_group_by_clause_loop, hc, hcols, generate_temp, hj,
              emit] at h
            obtain ⟨d, k, hd⟩ := ih _ _ h
            refine ⟨⟨some "GROUP_BY", Arg.str joined, Arg.none,
              Arg.str ("T" ++ Nat.repr (st.temp_counter + 1))⟩ :: d, k, ?_⟩
            rw [hd]
            simp
    · simp only [analyze_group_by_clause_loop, hc, if_neg, not_false_iff] at h
      exact ih _ _ h

theorem collect_group_columns_some (ch : List ASTNode) (acc : List (Option String))
    (hacc : ∀ v ∈ acc, v ≠ Option.none)
    (hch : ∀ g ∈ ch, g.type = ASTNodeType.IDENTIFIER → g.value ≠ Option.none) :
    ∀ v ∈ collect_group_columns ch acc, v ≠ Option.none := by
  induction ch generalizing acc with
  | nil => simpa [collect_group_columns] using hacc
  | cons g rest ih =>
    have hg := hch _ (List.mem_cons_self _ _)
    have hrest := fun x hx => hch x (List.mem_cons_of_mem _ hx)
    by_cases hgt : g.type = ASTNodeType.IDENTIFIER
    · simp only [collect_group_columns, hgt, if_pos]
      refine ih _ ?_ hrest
      intro v hv
      rcases List.mem_append.mp hv with h1 | h1
      · exact hacc v h1
      · rcases List.mem_singleton.mp h1 with rfl
        exact hg hgt
    · simp only [collect_group_columns, hgt, if_neg, not_false_iff]
      exact ih _ hacc hrest

theorem comma_join_ok (l : List (Option String)) (h : ∀ v ∈ l, v ≠ Option.none) :
    ∃ s, comma_join l = Except.ok s := by
  suffices hs : ∃ parts, comma_join.comma_join_strings l = Except.ok parts by
    obtain ⟨parts, hp⟩ := hs
    exact ⟨String.intercalate "," parts, by simp [comma_join, hp]⟩
  induction l with
  | nil => exact ⟨[], rfl⟩
  | cons v rest ih =>
    cases v with
    | none => exact absurd rfl (h _ (List.mem_cons_self _ _))
    | some s =>
        obtain ⟨parts, hp⟩ := ih (fun x hx => h x (List.mem_cons_of_mem _ hx))
        exact ⟨s :: parts, by simp [comma_join.comma_join_strings, hp]⟩

theorem group_loop_ok_of (l : List ASTNode) (gi : GroupInfo) (st : AnalyzerState)
    (hg : ∀ c ∈ l, c.type = ASTNodeType.GROUP_BY_CLAUSE →
      ∀ g ∈ c.children, g.type = ASTNodeType.IDENTIFIER → g.value ≠ Option.none)
    (hgi : ∀ v ∈ gi.columns, v ≠ Option.none) :
    ∃ gi' st', analyze_group_by_clause_loop l gi st = (Except.ok (), gi', st') := by
  induction l generalizing gi st with
  | nil => exact ⟨gi, st, rfl⟩
  | cons c rest ih =>
    have hrest := fun x hx => hg x (List.mem_cons_of_mem _ hx)
    by_cases hc : c.type = ASTNodeType.GROUP_BY_CLAUSE
    · have hcols : ∀ v ∈ collect_group_columns c.children gi.columns,
          v ≠ Option.none :=
        collect_group_columns_some _ _ hgi (hg _ (List.mem_cons_self _ _) hc)
      by_cases hne :
          collect_group_columns c.children gi.columns = ([] : List (Option String))
      · simp [analyze_group_by_clause_loop, hc, hne]
        exact ih ⟨[], true⟩ st hrest
          (by intro v hv; exact absurd hv (List.not_mem_nil v))
      · obtain ⟨s, hs⟩ := comma_join_ok _ hcols
        simp [analyze_group_by_clause_loop, hc, hne, hs, generate_temp]
        exact ih ⟨collect_group_columns c.children gi.columns, true⟩ _ hrest hcols
    · simp only [analyze_group_by_clause_loop, hc, if_neg, not_false_iff]
      exact ih _ _ hrest hgi

theorem order_loop_snd (l : List ASTNode) (st : AnalyzerState) :
    ∃ d k, analyze_order_by_clause_loop l st =
      { st with quadruples := st.quadruples ++ d, temp_counter := k } := by
  induction l generalizing st with
  | nil => exact ⟨[], st.temp_counter, by simp [analyze_order_by_clause_loop]⟩
  | cons c rest ih =>
    by_cases hc : c.type = ASTNodeType.ORDER_BY_CLAUSE
    · by_cases hs : collect_order_specs c.children [] = ([] : List String)
      · simp [analyze_order_by_clause_loop, hc, hs]
        exact ih st
      · obtain ⟨d, k, hd⟩ := ih (emit (some "ORDER_BY")
          (Arg.str (String.intercalate "," (collect_order_specs c.children [])))
          Arg.none (Arg.str ("T" ++ Nat.repr (st.temp_counter + 1)))
          { st with temp_counter := st.temp_counter + 1 })
        refine ⟨⟨some "ORDER_BY",
          Arg.str (String.intercalate "," (collect_order_specs c.children [])),
          Arg.none, Arg.str ("T" ++ Nat.repr (st.temp_counter + 1))⟩ :: d, k, ?_⟩
        simp only [analyze_order_by_clause_loop, hc, if_pos]
        rw [if_pos hs]
        simp only [generate_temp]
        rw [hd]
        simp [emit]
    · simp only [analyze_order_by_clause_loop, hc, if_neg, not_false_iff]
      exact ih st

theorem analyze_select_list_snd (node : ASTNode) (st : AnalyzerState) :
    (analyze_select_list node st).2 =
      { st with
        quadruples := st.quadruples ++ aggDelta (colChildren node) st.temp_counter,
        temp_counter := st.temp_counter + aggCount (colChildren node) } := by
  unfold analyze_select_list colChildren
  cases node.children.find? (fun c => c.type = ASTNodeType.COLUMN_LIST) with
  | none => simp [aggDelta, aggCount]
  | some c => exact col_loop_snd _ _ _

theorem analyze_select_list_columns (node : ASTNode) (st : AnalyzerState) :
    (analyze_select_list node st).1.columns =
      colInfo (colChildren node) (Columns.cols []) st.temp_counter := by
  unfold analyze_select_list colChildren
  cases node.children.find? (fun c => c.type = ASTNodeType.COLUMN_LIST) with
  | none => rfl
  | some c => exact col_loop_columns _ _ _

theorem select_stmt_ok_quads (node : ASTNode) (st : AnalyzerState)
    (u : Unit) (st' : AnalyzerState)
    (h : analyze_select_statement node st = (Except.ok u, st')) :
    ∃ d t, st'.quadruples =
      st.quadruples ++ [begin_quad] ++ aggDelta (colChildren node) st.temp_counter
        ++ d ++
        [⟨some "SELECT",
          (colInfo (colChildren node) (Columns.cols []) st.temp_counter).toArg,
          Arg.ofOpt (mainTableOf node.children Option.none), Arg.str t⟩,
         ⟨some "OUTPUT", Arg.str t, Arg.none, Arg.none⟩, end_quad] := by
  rcases h1 : analyze_from_clause node
      (emit (some "BEGIN") Arg.none Arg.none Arg.none st) with ⟨ti, st₁⟩
  rcases h2 : analyze_select_list node st₁ with ⟨si, st₂⟩
  rcases h3 : analyze_join_clauses_loop node.children ti st₂ with ⟨ti₂, st₃⟩
  rcases h4 : analyze_where_clause_loop node.children st₃ with ⟨ew, st₄⟩
  simp only [analyze_select_statement, h1, h2, h3, h4] at h
  cases ew with
  | error e => simp at h
  | ok u₁ =>
  have hst4 : st₄ = st₃ := where_loop_ok_state _ _ _ _ h4
  subst hst4
  rcases h5 : analyze_group_by_clause_loop node.children
      { columns := [], has_group_by := false } st₄ with ⟨eg, gi₂, st₅⟩
  simp only [h5] at h
  cases eg with
  | error e => simp at h
  | ok u₂ =>
  obtain ⟨d₂, k₂, hst5⟩ := group_loop_ok_state _ _ _ _ _ _ h5
  rcases h6 : analyze_having_clause_loop node.children st₅ with ⟨eh, st₆⟩
  simp only [h6] at h
  cases eh with
  | error e => simp at h
  | ok u₃ =>
  have hst6 : st₆ = st₅ := having_loop_ok_state _ _ _ _ h6
  subst hst6
  obtain ⟨d₃, k₃, h7⟩ := order_loop_snd node.children st₆
  simp only [generate_temp, emit] at h
  rw [h7] at h
  rw [Prod.mk.injEq] at h
  obtain ⟨-, hfin⟩ := h
  obtain ⟨T₁, hT₁⟩ := from_loop_snd node.children
    { main_table := Option.none, tables := [] }
    (emit (some "BEGIN") Arg.none Arg.none Arg.none st)
  have e1 : (analyze_from_clause node
      (emit (some "BEGIN") Arg.none Arg.none Arg.none st)).2 = st₁ :=
    congrArg Prod.snd h1
  have hT₁' : (analyze_from_clause node
      (emit (some "BEGIN") Arg.none Arg.none Arg.none st)).2 =
      { emit (some "BEGIN") Arg.none Arg.none Arg.none st with
        symbol_table := T₁ } := hT₁
  have hst1 := e1.symm.trans hT₁'
  have e2 : (analyze_select_list node st₁).2 = st₂ := congrArg Prod.snd h2
  have hst2 := e2.symm.trans (analyze_select_list_snd node st₁)
  have e3 : (analyze_join_clauses_loop node.children ti st₂).2 = st₄ :=
    congrArg Prod.snd h3
  obtain ⟨d₁, k₁, hJ⟩ := joins_loop_snd node.children ti st₂
  have hst3 := e3.symm.trans hJ
  have hsi : si.columns =
      colInfo (colChildren node) (Columns.cols []) st₁.temp_counter := by
    have := analyze_select_list_columns node st₁
    rw [h2] at this
    exact this
  have hti2 : ti₂.main_table = mainTableOf node.children Option.none := by
    have hm := joins_loop_main node.children ti st₂
    rw [h3] at hm
    have hm2 : ti₂.main_table = ti.main_table := hm
    have hfm : (analyze_from_clause node
        (emit (some "BEGIN") Arg.none Arg.none Arg.none st)).1.main_table =
        mainTableOf node.children Option.none :=
      from_loop_main node.children
        { main_table := Option.none, tables := [] }
        (emit (some "BEGIN") Arg.none Arg.none Arg.none st)
    rw [h1] at hfm
    exact hm2.trans hfm
  refine ⟨d₁ ++ d₂ ++ d₃, "T" ++ Nat.repr (k₃ + 1), ?_⟩
  rw [← hfin]
  rw [hst5, hst3, hst2, hst1]
  simp [emit, hsi, hti2, hst1, begin_quad, end_quad]

theorem analyze_nonempty (ast : ASTNode) (qs : List Quadruple) (e : Option PyError)
    (h : analyze ast = (qs, e)) (hne : qs ≠ []) :
    e = Option.none ∧ ast.type = ASTNodeType.SELECT_STMT ∧
    ∃ d t, qs = begin_quad :: aggDelta (colChildren ast) 0 ++ d ++
      [⟨some "SELECT", (colInfo (colChildren ast) (Columns.cols []) 0).toArg,
        Arg.ofOpt (mainTableOf ast.children Option.none), Arg.str t⟩,
       ⟨some "OUTPUT", Arg.str t, Arg.none, Arg.none⟩, end_quad] := by
  unfold analyze analyze_with at h
  by_cases hty : ast.type = ASTNodeType.SELECT_STMT
  · simp only [hty, if_pos, init_state] at h
    rcases hs : analyze_select_statement ast ⟨[], [], 0, 0⟩ with ⟨ex, st₁⟩
    simp only [hs] at h
    cases ex with
    | error ee => exact absurd (congrArg Prod.fst h).symm hne
    | ok uu =>
        have hq : st₁.quadruples = qs := congrArg Prod.fst h
        have he : (Option.none : Option PyError) = e := congrArg Prod.snd h
        obtain ⟨d, t, hdec⟩ := select_stmt_ok_quads ast _ uu st₁ hs
        refine ⟨he.symm, hty, d, t, ?_⟩
        rw [← hq, hdec]
        simp
  · simp [hty] at h
    exact absurd h.1 hne

/-- Claim C1: the spec requires `_analyze_where_clause` to resolve the
condition of a present `WHERE_CLAUSE` child to a fresh temporary and emit a
`WHERE` quadruple referencing it.  The source cannot do this: line 243 calls
`self._emit('CONDITION', 'column', '>', 'value', condition_temp)` with five
positional arguments for the four-parameter `_emit`, so Python raises
`TypeError`, `analyze` catches it and returns an empty list.  This theorem
evaluates the model at the failing input (a select statement with a WHERE
clause): the result is empty with a reported `TypeError` and contains no
`WHERE` quadruple. -/
theorem c1_where_clause_type_error :
    analyze (ASTNode.mk ASTNodeType.SELECT_STMT Option.none
      [ASTNode.mk ASTNodeType.TABLE_NAME (some "students") [],
       ASTNode.mk ASTNodeType.COLUMN_LIST Option.none
         [ASTNode.mk ASTNodeType.IDENTIFIER (some "name") []],
       ASTNode.mk ASTNodeType.WHERE_CLAUSE Option.none
         [ASTNode.mk ASTNodeType.CONDITION Option.none []]]) =
      ([], some (PyError.typeError
        "_emit() takes 5 positional arguments but 6 were given")) := by
  decide

/-- Claim C2: the spec says an error is raised only for an unrecognized
statement root and that every select-statement AST completes without error.
The code contradicts this: any present `WHERE_CLAUSE` or `HAVING_CLAUSE`
child reaches the arity-mismatched `_emit` call inside `_analyze_condition`
and the pass aborts with a `TypeError`.  Evaluated here at a select
statement with a HAVING clause. -/
theorem c2_having_clause_aborts_pass :
    analyze (ASTNode.mk ASTNodeType.SELECT_STMT Option.none
      [ASTNode.mk ASTNodeType.TABLE_NAME (some "students") [],
       ASTNode.mk ASTNodeType.COLUMN_LIST Option.none
         [ASTNode.mk ASTNodeType.IDENTIFIER (some "name") []],
       ASTNode.mk ASTNodeType.HAVING_CLAUSE Option.none []]) =
      ([], some (PyError.typeError
        "_emit() takes 5 positional arguments but 6 were given")) := by
  decide

/-- Claim C3: for every AST whose root kind is not the select-statement
discriminant, `analyze` returns an empty quadruple sequence and reports a
`SemanticError` (the exception is caught at the `analyze` boundary, so in
the model the call still returns a value — nothing propagates). -/
theorem c3_unsupported_root (ast : ASTNode)
    (h : ast.type ≠ ASTNodeType.SELECT_STMT) :
    analyze ast = ([], some (PyError.semanticError
      ("Unsupported statement type: " ++ enum_str ast.type))) := by
  unfold analyze analyze_with
  simp [h]

/-- Witness for C3 at a concrete non-select root. -/
theorem c3_witness :
    analyze (ASTNode.mk ASTNodeType.CONDITION Option.none []) =
      ([], some (PyError.semanticError
        "Unsupported statement type: ASTNodeType.CONDITION")) :=
  c3_unsupported_root (ASTNode.mk ASTNodeType.CONDITION Option.none [])
    (by decide)

/-- Claim C6: whenever `analyze` returns a non-empty quadruple sequence, the
first quadruple is `BEGIN`, the last is `END`, and the `SELECT` and `OUTPUT`
quadruples (sharing the result temporary) are, in that order, the two
quadruples immediately preceding `END`. -/
theorem c6_begin_select_output_end (ast : ASTNode) (qs : List Quadruple)
    (e : Option PyError) (h : analyze ast = (qs, e)) (hne : qs ≠ []) :
    ∃ mid c a t, qs = begin_quad :: mid ++
      [⟨some "SELECT", c, a, Arg.str t⟩,
       ⟨some "OUTPUT", Arg.str t, Arg.none, Arg.none⟩, end_quad] := by
  obtain ⟨-, -, d, t, hdec⟩ := analyze_nonempty ast qs e h hne
  refine ⟨aggDelta (colChildren ast) 0 ++ d,
    (colInfo (colChildren ast) (Columns.cols []) 0).toArg,
    Arg.ofOpt (mainTableOf ast.children Option.none), t, ?_⟩
  rw [hdec]
  simp

/-- Witness for C6 at the concrete query SELECT name FROM students. -/
theorem c6_witness :
    ∃ mid c a t,
      (analyze (ASTNode.mk ASTNodeType.SELECT_STMT Option.none
        [ASTNode.mk ASTNodeType.TABLE_NAME (some "students") [],
         ASTNode.mk ASTNodeType.COLUMN_LIST Option.none
           [ASTNode.mk ASTNodeType.IDENTIFIER (some "name") []]])).1 =
        begin_quad :: mid ++
          [⟨some "SELECT", c, a, Arg.str t⟩,
           ⟨some "OUTPUT", Arg.str t, Arg.none, Arg.none⟩, end_quad] :=
  c6_begin_select_output_end _ _ _ rfl (by decide)

theorem colInfo_append (a b : List ASTNode) (cs : Columns) (k : Nat) :
    colInfo (a ++ b) cs k = colInfo b (colInfo a cs k) (k + aggCount a) := by
  induction a generalizing cs k with
  | nil => simp [colInfo, aggCount]
  | cons c rest ih =>
    rcases c with ⟨ty, v, ch⟩
    cases ty
    case AGGREGATE_FUNCTION =>
      have harith : k + (aggCount rest + 1) = (k + 1) + aggCount rest := by omega
      simp only [List.cons_append, colInfo, aggCount, ASTNode.type,
        List.append_eq, harith, ih]
    case IDENTIFIER =>
      by_cases hv : v = some "*" <;>
        simp only [List.cons_append, colInfo, aggCount, ASTNode.type,
          ASTNode.value, List.append_eq, hv, if_pos, if_neg, ih] <;>
        simp [hv, ih]
    all_goals
      simp only [List.cons_append, colInfo, aggCount, ASTNode.type,
        List.append_eq, ih]

theorem colInfo_star (l : List ASTNode) (k : Nat)
    (h : ∀ c ∈ l, (c.type = ASTNodeType.IDENTIFIER → c.value = some "*") ∧
      c.type ≠ ASTNodeType.AGGREGATE_FUNCTION) :
    colInfo l Columns.star k = Columns.star := by
  induction l generalizing k with
  | nil => rfl
  | cons c rest ih =>
    rcases c with ⟨ty, v, ch⟩
    have hc := h _ (List.mem_cons_self _ _)
    have hrest := fun x hx => h x (List.mem_cons_of_mem _ hx)
    simp only [ASTNode.type, ASTNode.value] at hc
    cases ty
    case IDENTIFIER =>
      have hv : v = some "*" := hc.1 rfl
      simp only [colInfo, ASTNode.type, ASTNode.value, hv, if_pos]
      exact ih _ hrest
    case AGGREGATE_FUNCTION => exact absurd rfl hc.2
    all_goals
      simp only [colInfo, ASTNode.type]
      exact ih _ hrest

theorem mainTableOf_no_table (l : List ASTNode) (m : Option String)
    (h : ∀ c ∈ l, c.type ≠ ASTNodeType.TABLE_NAME) :
    mainTableOf l m = m := by
  induction l generalizing m with
  | nil => rfl
  | cons c rest ih =>
    rcases c with ⟨ty, v, ch⟩
    have hc := h _ (List.mem_cons_self _ _)
    simp only [ASTNode.type] at hc
    have hrest := fun x hx => h x (List.mem_cons_of_mem _ hx)
    cases ty <;> simp only [mainTableOf, ASTNode.type] <;>
      first
        | exact absurd rfl hc
        | exact ih _ hrest

/-- Claim C4, counterexample: the claim says a wildcard anywhere in the
column list makes the final SELECT arg1 exactly the marker, regardless of
columns collected before or after.  But the column-list loop stores an
explicit column with `select_info['columns'] = [column_name]` whenever the
accumulator is not a list — so a column after the wildcard replaces it.  At
the concrete input below (column list contains the wildcard followed by the
identifier name) the final SELECT arg1 is the list containing name, not the
wildcard marker. -/
theorem c4_counterexample :
    (analyze (ASTNode.mk ASTNodeType.SELECT_STMT Option.none
      [ASTNode.mk ASTNodeType.COLUMN_LIST Option.none
        [ASTNode.mk ASTNodeType.IDENTIFIER (some "*") [],
         ASTNode.mk ASTNodeType.IDENTIFIER (some "name") []]])).1 =
      [begin_quad,
       ⟨some "SELECT", Arg.strList [some "name"], Arg.none, Arg.str "T1"⟩,
       ⟨some "OUTPUT", Arg.str "T1", Arg.none, Arg.none⟩, end_quad] ∧
    (∀ q ∈ (analyze (ASTNode.mk ASTNodeType.SELECT_STMT Option.none
      [ASTNode.mk ASTNodeType.COLUMN_LIST Option.none
        [ASTNode.mk ASTNodeType.IDENTIFIER (some "*") [],
         ASTNode.mk ASTNodeType.IDENTIFIER (some "name") []]])).1,
      q.op = some "SELECT" → q.arg1 ≠ Arg.str "*") := by
  decide

/-- Claim C4 as amended: if the first column list of a select-statement AST
contains a wildcard identifier child and no non-wildcard identifier and no
aggregate-function child occurs after it, then whenever the pass completes
(non-empty output) the final SELECT quadruple arg1 is exactly the wildcard
marker, regardless of any explicit columns or aggregate temporaries
collected before the wildcard.  (A non-wildcard identifier or an aggregate
after the last wildcard overrides the marker instead.) -/
theorem c4_wildcard_last_wins (ast : ASTNode) (qs : List Quadruple)
    (e : Option PyError) (l₁ l₂ wch : List ASTNode)
    (hcol : colChildren ast =
      l₁ ++ ASTNode.mk ASTNodeType.IDENTIFIER (some "*") wch :: l₂)
    (hl₂ : ∀ c ∈ l₂, (c.type = ASTNodeType.IDENTIFIER → c.value = some "*") ∧
      c.type ≠ ASTNodeType.AGGREGATE_FUNCTION)
    (h : analyze ast = (qs, e)) (hne : qs ≠ []) :
    ∃ mid a t, qs = begin_quad :: mid ++
      [⟨some "SELECT", Arg.str "*", a, Arg.str t⟩,
       ⟨some "OUTPUT", Arg.str t, Arg.none, Arg.none⟩, end_quad] := by
  obtain ⟨-, -, d, t, hdec⟩ := analyze_nonempty ast qs e h hne
  have hstar : colInfo (colChildren ast) (Columns.cols []) 0 = Columns.star := by
    rw [hcol, colInfo_append]
    have h1 : colInfo (ASTNode.mk ASTNodeType.IDENTIFIER (some "*") wch :: l₂)
        (colInfo l₁ (Columns.cols []) 0) (0 + aggCount l₁) =
        colInfo l₂ Columns.star (0 + aggCount l₁) := by
      simp [colInfo, ASTNode.type, ASTNode.value]
    rw [h1, colInfo_star _ _ hl₂]
  rw [hstar] at hdec
  exact ⟨aggDelta (colChildren ast) 0 ++ d,
    Arg.ofOpt (mainTableOf ast.children Option.none), t,
    by rw [hdec]; simp [Columns.toArg]⟩

/-- Witness for the amended C4: at `c4_witness_ast` the SELECT arg1 is the
wildcard marker. -/
theorem c4_witness :
    ∃ mid a t,
      (analyze c4_witness_ast).1 = begin_quad :: mid ++
        [⟨some "SELECT", Arg.str "*", a, Arg.str t⟩,
         ⟨some "OUTPUT", Arg.str t, Arg.none, Arg.none⟩, end_quad] :=
  c4_wildcard_last_wins c4_witness_ast (analyze c4_witness_ast).1
    (analyze c4_witness_ast).2
    [ASTNode.mk ASTNodeType.IDENTIFIER (some "name") []] [] [] rfl
    (by intro c hc; exact absurd hc (List.not_mem_nil c)) rfl (by decide)

/-- Claim C8: for every aggregate-function node in the column list, a fresh
temporary is allocated and exactly one aggregate quadruple is emitted before
the final SELECT quadruple: a COUNT node yields `(COUNT, *, -, T<n>)`, any
other aggregate kind `(<func>, value, -, T<n>)` with the fixed placeholder
column name, and the temporary is appended to the column accumulator in
place of the function.  The aggregate node at list position after `l₁` is
the `aggCount l₁ + 1`-st temp consumer of the pass, its quadruple sits at
output index `aggCount l₁ + 1` (right after BEGIN and the quadruples of the
aggregates in `l₁`), strictly before the final SELECT at index
`length - 3`. -/
theorem c8_aggregate_emission (ast : ASTNode) (qs : List Quadruple)
    (e : Option PyError) (l₁ l₂ ach : List ASTNode) (av : Option String)
    (hcol : colChildren ast =
      l₁ ++ ASTNode.mk ASTNodeType.AGGREGATE_FUNCTION av ach :: l₂)
    (h : analyze ast = (qs, e)) (hne : qs ≠ []) :
    ((av = some "COUNT" →
        qs[aggCount l₁ + 1]? = some ⟨some "COUNT", Arg.str "*", Arg.none,
          Arg.str ("T" ++ Nat.repr (aggCount l₁ + 1))⟩) ∧
     (av ≠ some "COUNT" →
        qs[aggCount l₁ + 1]? = some ⟨av, Arg.str "value", Arg.none,
          Arg.str ("T" ++ Nat.repr (aggCount l₁ + 1))⟩)) ∧
    aggCount l₁ + 1 < qs.length - 3 ∧
    (∃ pre,
      (analyze_column_list_loop
        (l₁ ++ [ASTNode.mk ASTNodeType.AGGREGATE_FUNCTION av ach])
        { columns := Columns.cols [], aggregates := [], has_aggregates := false }
        init_state).1.columns =
      Columns.cols (pre ++ [some ("T" ++ Nat.repr (aggCount l₁ + 1))])) := by
  obtain ⟨-, -, d, t, hdec⟩ := analyze_nonempty ast qs e h hne
  have hsplit : aggDelta (colChildren ast) 0 =
      aggDelta l₁ 0 ++ aggQuad av ("T" ++ Nat.repr (aggCount l₁ + 1)) ::
        aggDelta l₂ (aggCount l₁ + 1) := by
    rw [hcol, aggDelta_append]
    simp [aggDelta, ASTNode.type, ASTNode.value]
  have hlen₁ : (aggDelta l₁ 0).length = aggCount l₁ := aggDelta_length _ _
  have hq : qs = (begin_quad :: aggDelta l₁ 0) ++
      aggQuad av ("T" ++ Nat.repr (aggCount l₁ + 1)) ::
        (aggDelta l₂ (aggCount l₁ + 1) ++ d ++
          [⟨some "SELECT", (colInfo (colChildren ast) (Columns.cols []) 0).toArg,
            Arg.ofOpt (mainTableOf ast.children Option.none), Arg.str t⟩,
           ⟨some "OUTPUT", Arg.str t, Arg.none, Arg.none⟩, end_quad]) := by
    rw [hdec, hsplit]
    simp
  have hl : (begin_quad :: aggDelta l₁ 0).length = aggCount l₁ + 1 := by
    simp [hlen₁]
  have hpos : qs[aggCount l₁ + 1]? =
      some (aggQuad av ("T" ++ Nat.repr (aggCount l₁ + 1))) := by
    rw [hq, List.getElem?_append_right (le_of_eq hl)]
    simp [hl]
  refine ⟨⟨?_, ?_⟩, ?_, ?_⟩
  · intro hco
    rw [hpos]
    simp [aggQuad, hco]
  · intro hnc
    rw [hpos]
    simp [aggQuad, hnc]
  · have hlq := congrArg List.length hq
    simp [hlen₁] at hlq
    omega
  · have hc2 : (analyze_column_list_loop
        (l₁ ++ [ASTNode.mk ASTNodeType.AGGREGATE_FUNCTION av ach])
        { columns := Columns.cols [], aggregates := [], has_aggregates := false }
        init_state).1.columns =
        colInfo (l₁ ++ [ASTNode.mk ASTNodeType.AGGREGATE_FUNCTION av ach])
          (Columns.cols []) 0 :=
      col_loop_columns _ _ _
    cases hX : colInfo l₁ (Columns.cols []) 0 with
    | cols l =>
        exact ⟨l, by
          rw [hc2, colInfo_append, hX]
          simp [colInfo, ASTNode.type, colAppend]⟩
    | star =>
        exact ⟨[], by
          rw [hc2, colInfo_append, hX]
          simp [colInfo, ASTNode.type, colAppend]⟩

/-- Witness for C8: in SELECT COUNT, AVG FROM students the AVG node (one
aggregate before it) emits `(AVG, value, -, T2)` at output index 2. -/
theorem c8_witness :
    (analyze c8_witness_ast).1[2]? =
      some ⟨some "AVG", Arg.str "value", Arg.none, Arg.str "T2"⟩ :=
  (c8_aggregate_emission c8_witness_ast (analyze c8_witness_ast).1
    (analyze c8_witness_ast).2
    [ASTNode.mk ASTNodeType.AGGREGATE_FUNCTION (some "COUNT") []] [] []
    (some "AVG") rfl rfl (by decide)).1.2 (by decide)

theorem order_loop_sym (l : List ASTNode) (s : AnalyzerState) :
    (analyze_order_by_clause_loop l s).symbol_table = s.symbol_table := by
  obtain ⟨d, k, h⟩ := order_loop_snd l s
  rw [h]

theorem select_stmt_run (node : ASTNode) (st : AnalyzerState)
    (hnt : ∀ c ∈ node.children, c.type ≠ ASTNodeType.TABLE_NAME)
    (hnw : ∀ c ∈ node.children, c.type ≠ ASTNodeType.WHERE_CLAUSE)
    (hnh : ∀ c ∈ node.children, c.type ≠ ASTNodeType.HAVING_CLAUSE)
    (hgb : ∀ c ∈ node.children, c.type = ASTNodeType.GROUP_BY_CLAUSE →
      ∀ g ∈ c.children, g.type = ASTNodeType.IDENTIFIER →
        g.value ≠ Option.none) :
    (analyze_select_statement node st).1 = Except.ok () ∧
      (analyze_select_statement node st).2.symbol_table = st.symbol_table := by
  have hfrom : analyze_from_clause node
      (emit (some "BEGIN") Arg.none Arg.none Arg.none st) =
      ({ main_table := Option.none, tables := [] },
        emit (some "BEGIN") Arg.none Arg.none Arg.none st) :=
    from_loop_no_table _ _ _ hnt
  rcases hsl : analyze_select_list node
      (emit (some "BEGIN") Arg.none Arg.none Arg.none st) with ⟨si, st₂⟩
  rcases hj : analyze_join_clauses_loop node.children
      { main_table := Option.none, tables := [] } st₂ with ⟨ti₂, st₃⟩
  have hw := where_loop_no_where node.children st₃ hnw
  obtain ⟨gi', st₅, hg⟩ := group_loop_ok_of node.children
    { columns := [], has_group_by := false } st₃ hgb
    (by intro v hv; exact absurd hv (List.not_mem_nil v))
  have hh := having_loop_no_having node.children st₅ hnh
  constructor
  · simp only [analyze_select_statement, hfrom, hsl, hj, hw, hg, hh,
      generate_temp]
  · obtain ⟨d₃, k₃, h7⟩ := order_loop_snd node.children st₅
    simp only [analyze_select_statement, hfrom, hsl, hj, hw, hg, hh,
      generate_temp]
    have e2 : (analyze_select_list node
        (emit (some "BEGIN") Arg.none Arg.none Arg.none st)).2 = st₂ :=
      congrArg Prod.snd hsl
    have hst2 := e2.symm.trans (analyze_select_list_snd node _)
    have e3 : (analyze_join_clauses_loop node.children
        { main_table := Option.none, tables := [] } st₂).2 = st₃ :=
      congrArg Prod.snd hj
    obtain ⟨d₁, k₁, hJ⟩ := joins_loop_snd node.children
      { main_table := Option.none, tables := [] } st₂
    have hst3 := e3.symm.trans hJ
    obtain ⟨d₂, k₂, hst5⟩ := group_loop_ok_state node.children
      { columns := [], has_group_by := false } st₃ () gi' st₅ hg
    simp [emit, hst5, hst3, hst2, generate_temp, order_loop_sym]

/-- Claim C10, counterexample: the claim asserts that every select-statement
AST with no table-name child and no WHERE or HAVING clause completes without
error.  A GROUP BY clause whose identifier child has no value refutes it:
`','.join(group_columns)` meets the `None` entry and raises `TypeError`, so
`analyze` reports an error and returns no quadruples at all (hence also no
final SELECT quadruple). -/
theorem c10_counterexample :
    analyze (ASTNode.mk ASTNodeType.SELECT_STMT Option.none
      [ASTNode.mk ASTNodeType.GROUP_BY_CLAUSE Option.none
        [ASTNode.mk ASTNodeType.IDENTIFIER Option.none []]]) =
      ([], some (PyError.typeError
        "sequence item: expected str instance, NoneType found")) ∧
    (∀ c ∈ (ASTNode.mk ASTNodeType.SELECT_STMT Option.none
      [ASTNode.mk ASTNodeType.GROUP_BY_CLAUSE Option.none
        [ASTNode.mk ASTNodeType.IDENTIFIER Option.none []]]).children,
      c.type ≠ ASTNodeType.TABLE_NAME ∧ c.type ≠ ASTNodeType.WHERE_CLAUSE ∧
        c.type ≠ ASTNodeType.HAVING_CLAUSE) := by
  decide

/-- Claim C10 as amended: for every select-statement AST with no table-name
child, no WHERE or HAVING clause child, and in whose GROUP BY clauses every
identifier child carries a value, `analyze` completes without error, the
final SELECT quadruple has `arg2 = None`, and no table symbol is registered
in the (fresh-instance) symbol table — a missing FROM clause is not detected
as an error. -/
theorem c10_no_from_completes (ast : ASTNode)
    (hty : ast.type = ASTNodeType.SELECT_STMT)
    (hnt : ∀ c ∈ ast.children, c.type ≠ ASTNodeType.TABLE_NAME)
    (hnw : ∀ c ∈ ast.children, c.type ≠ ASTNodeType.WHERE_CLAUSE)
    (hnh : ∀ c ∈ ast.children, c.type ≠ ASTNodeType.HAVING_CLAUSE)
    (hgb : ∀ c ∈ ast.children, c.type = ASTNodeType.GROUP_BY_CLAUSE →
      ∀ g ∈ c.children, g.type = ASTNodeType.IDENTIFIER →
        g.value ≠ Option.none) :
    (analyze ast).2 = Option.none ∧
    (∃ mid c t, (analyze ast).1 = begin_quad :: mid ++
      [⟨some "SELECT", c, Arg.none, Arg.str t⟩,
       ⟨some "OUTPUT", Arg.str t, Arg.none, Arg.none⟩, end_quad]) ∧
    (analyze_with init_state ast).2.symbol_table = [] := by
  obtain ⟨hok, hsym⟩ := select_stmt_run ast ⟨[], [], 0, 0⟩ hnt hnw hnh hgb
  have hrun : analyze_select_statement ast ⟨[], [], 0, 0⟩ =
      (Except.ok (), (analyze_select_statement ast ⟨[], [], 0, 0⟩).2) :=
    Prod.ext hok rfl
  have hAW : analyze_with init_state ast =
      (((analyze_select_statement ast ⟨[], [], 0, 0⟩).2.quadruples,
        Option.none),
       (analyze_select_statement ast ⟨[], [], 0, 0⟩).2) := by
    unfold analyze_with
    simp only [hty, if_pos, init_state]
    rw [hrun]
  obtain ⟨d, t, hdec⟩ := select_stmt_ok_quads ast ⟨[], [], 0, 0⟩ ()
    (analyze_select_statement ast ⟨[], [], 0, 0⟩).2 hrun
  have hmain : mainTableOf ast.children Option.none = Option.none :=
    mainTableOf_no_table _ _ hnt
  refine ⟨?_, ⟨aggDelta (colChildren ast) 0 ++ d,
    (colInfo (colChildren ast) (Columns.cols []) 0).toArg, t, ?_⟩, ?_⟩
  · simp [analyze, hAW]
  · rw [hmain] at hdec
    simp [analyze, hAW, hdec, Arg.ofOpt]
  · rw [hAW]
    exact hsym

/-- Witness for the amended C10 at a concrete select statement with a
column list, a valued GROUP BY column and no FROM table. -/
theorem c10_witness :
    (analyze (ASTNode.mk ASTNodeType.SELECT_STMT Option.none
      [ASTNode.mk ASTNodeType.COLUMN_LIST Option.none
        [ASTNode.mk ASTNodeType.IDENTIFIER (some "name") []],
       ASTNode.mk ASTNodeType.GROUP_BY_CLAUSE Option.none
        [ASTNode.mk ASTNodeType.IDENTIFIER (some "major") []]])).2 =
      Option.none ∧
    (∃ mid c t, (analyze (ASTNode.mk ASTNodeType.SELECT_STMT Option.none
      [ASTNode.mk ASTNodeType.COLUMN_LIST Option.none
        [ASTNode.mk ASTNodeType.IDENTIFIER (some "name") []],
       ASTNode.mk ASTNodeType.GROUP_BY_CLAUSE Option.none
        [ASTNode.mk ASTNodeType.IDENTIFIER (some "major") []]])).1 =
      begin_quad :: mid ++
        [⟨some "SELECT", c, Arg.none, Arg.str t⟩,
         ⟨some "OUTPUT", Arg.str t, Arg.none, Arg.none⟩, end_quad]) ∧
    (analyze_with init_state (ASTNode.mk ASTNodeType.SELECT_STMT Option.none
      [ASTNode.mk ASTNodeType.COLUMN_LIST Option.none
        [ASTNode.mk ASTNodeType.IDENTIFIER (some "name") []],
       ASTNode.mk ASTNodeType.GROUP_BY_CLAUSE Option.none
        [ASTNode.mk ASTNodeType.IDENTIFIER (some "major") []]])).2.symbol_table
      = [] :=
  c10_no_from_completes _ (by decide) (by decide) (by decide) (by decide)
    (by decide)

/-- Claim C9: for one `JOIN_CLAUSE` node, if the collection loop found a
(truthy) join-table name and an ON condition, `_analyze_join_clause` emits a
`JOIN` quadruple (arg1 the main table, arg2 the joined table, result a fresh
temporary) immediately followed by an `ON` quadruple (arg1/arg2 the resolved
left and right operands, result the comparison operator tag); if either is
missing, neither quadruple is emitted.  Found means what the Python
truthiness test `if join_table and join_condition` checks: the value of the
last TABLE_NAME child is a non-empty string, and an ON_CLAUSE child was
seen. -/
theorem c9_join_on_emission (node : ASTNode) (ti : TableInfo)
    (st : AnalyzerState) :
    (str_truthy
        (analyze_join_clause_loop node.children Option.none Option.none ti).1
          = true ∧
      (analyze_join_clause_loop node.children Option.none Option.none
        ti).2.1.isSome = true →
      ∃ cond,
        (analyze_join_clause_loop node.children Option.none Option.none
          ti).2.1 = some cond ∧
        (analyze_join_clause node ti st).2.quadruples = st.quadruples ++
          [⟨some "JOIN", Arg.ofOpt ti.main_table,
            Arg.ofOpt (analyze_join_clause_loop node.children Option.none
              Option.none ti).1,
            Arg.str ("T" ++ Nat.repr (st.temp_counter + 1))⟩,
           ⟨some "ON", Arg.str cond.left, Arg.str cond.right,
            Arg.str cond.op⟩]) ∧
    (¬(str_truthy
        (analyze_join_clause_loop node.children Option.none Option.none ti).1
          = true ∧
      (analyze_join_clause_loop node.children Option.none Option.none
        ti).2.1.isSome = true) →
      (analyze_join_clause node ti st).2.quadruples = st.quadruples) := by
  rcases hr : analyze_join_clause_loop node.children Option.none Option.none ti
    with ⟨jt, jc, ti'⟩
  have hmp := join_clause_loop_main node.children Option.none Option.none ti
  rw [hr] at hmp
  have hm : ti'.main_table = ti.main_table := hmp
  constructor
  · rintro ⟨h1, h2⟩
    cases jc with
    | none => simp at h2
    | some cond =>
        refine ⟨cond, rfl, ?_⟩
        unfold analyze_join_clause
        rw [hr]
        simp [h1, generate_temp, emit, hm]
  · intro hn
    unfold analyze_join_clause
    rw [hr]
    by_cases hb : str_truthy jt = true
    · have hjc : jc = Option.none := by
        cases jc with
        | none => rfl
        | some c => exact absurd ⟨hb, rfl⟩ hn
      subst hjc
      simp [hb]
    · simp [hb]

/-- Witness for C9: a JOIN clause with table `courses` and an ON clause,
analyzed against main table `students` from a fresh state. -/
theorem c9_witness :
    ∃ cond,
      (analyze_join_clause_loop c9_witness_node.children Option.none
        Option.none
        { main_table := some "students", tables := [some "students"] }).2.1 =
        some cond ∧
      (analyze_join_clause c9_witness_node
        { main_table := some "students", tables := [some "students"] }
        init_state).2.quadruples = init_state.quadruples ++
        [⟨some "JOIN", Arg.ofOpt (some "students"),
          Arg.ofOpt (analyze_join_clause_loop c9_witness_node.children
            Option.none Option.none
            { main_table := some "students",
              tables := [some "students"] }).1,
          Arg.str ("T" ++ Nat.repr (init_state.temp_counter + 1))⟩,
         ⟨some "ON", Arg.str cond.left, Arg.str cond.right,
          Arg.str cond.op⟩] :=
  (c9_join_on_emission c9_witness_node
    { main_table := some "students", tables := [some "students"] }
    init_state).1 ⟨by decide, by decide⟩

theorem from_loop_core (l : List ASTNode) (ti : TableInfo)
    (a b : AnalyzerState) (hab : coreEq a b) :
    (analyze_from_clause_loop l ti a).1 = (analyze_from_clause_loop l ti b).1 ∧
      coreEq (analyze_from_clause_loop l ti a).2
        (analyze_from_clause_loop l ti b).2 := by
  induction l generalizing ti a b with
  | nil => exact ⟨rfl, hab⟩
  | cons c rest ih =>
    rcases c with ⟨ty, v, ch⟩
    cases ty <;> simp only [analyze_from_clause_loop, ASTNode.type] <;>
      exact ih _ _ _ hab

theorem col_loop_core (l : List ASTNode) (si : SelectInfo)
    (a b : AnalyzerState) (hab : coreEq a b) :
    (analyze_column_list_loop l si a).1 = (analyze_column_list_loop l si b).1 ∧
      coreEq (analyze_column_list_loop l si a).2
        (analyze_column_list_loop l si b).2 := by
  induction l generalizing si a b with
  | nil => exact ⟨rfl, hab⟩
  | cons c rest ih =>
    rcases c with ⟨ty, v, ch⟩
    obtain ⟨h1, h2, h3⟩ := hab
    cases ty
    case IDENTIFIER =>
      by_cases hv : v = some "*" <;>
        simp only [analyze_column_list_loop, ASTNode.type, ASTNode.value, hv,
          if_pos, if_neg, not_false_iff] <;>
        exact ih _ _ _ ⟨h1, h2, h3⟩
    case AGGREGATE_FUNCTION =>
      by_cases hv : v = some "COUNT" <;>
        simp only [analyze_column_list_loop, ASTNode.type, ASTNode.value, hv,
          generate_temp, emit, h1, h2, h3, if_pos, if_neg, not_false_iff] <;>
        exact ih _ _ _ ⟨rfl, rfl, rfl⟩
    all_goals
      simp only [analyze_column_list_loop, ASTNode.type]
      exact ih _ _ _ ⟨h1, h2, h3⟩

theorem select_list_core (node : ASTNode) (a b : AnalyzerState)
    (hab : coreEq a b) :
    (analyze_select_list node a).1 = (analyze_select_list node b).1 ∧
      coreEq (analyze_select_list node a).2 (analyze_select_list node b).2 := by
  unfold analyze_select_list
  cases node.children.find? (fun c => c.type = ASTNodeType.COLUMN_LIST) with
  | none => exact ⟨rfl, hab⟩
  | some c => exact col_loop_core _ _ _ _ hab

theorem join_clause_core (node : ASTNode) (ti : TableInfo)
    (a b : AnalyzerState) (hab : coreEq a b) :
    (analyze_join_clause node ti a).1 = (analyze_join_clause node ti b).1 ∧
      coreEq (analyze_join_clause node ti a).2
        (analyze_join_clause node ti b).2 := by
  obtain ⟨h1, h2, h3⟩ := hab
  unfold analyze_join_clause
  rcases analyze_join_clause_loop node.children Option.none Option.none ti
    with ⟨jt, jc, ti'⟩
  by_cases hc : str_truthy jt = true ∧ jc.isSome = true
  · cases jc with
    | none => simp at hc
    | some cond =>
        simp only [hc, if_pos, generate_temp, emit, h1, h2, h3]
        exact ⟨by trivial, by trivial, by trivial, by trivial⟩
  · simp only [hc, if_neg, not_false_iff]
    exact ⟨by trivial, h1, h2, h3⟩

theorem joins_loop_core (l : List ASTNode) (ti : TableInfo)
    (a b : AnalyzerState) (hab : coreEq a b) :
    (analyze_join_clauses_loop l ti a).1 = (analyze_join_clauses_loop l ti b).1 ∧
      coreEq (analyze_join_clauses_loop l ti a).2
        (analyze_join_clauses_loop l ti b).2 := by
  induction l generalizing ti a b with
  | nil => exact ⟨rfl, hab⟩
  | cons c rest ih =>
    by_cases hc : c.type = ASTNodeType.JOIN_CLAUSE
    · simp only [analyze_join_clauses_loop, hc, if_pos]
      rcases hja : analyze_join_clause c ti a with ⟨tia, sta⟩
      rcases hjb : analyze_join_clause c ti b with ⟨tib, stb⟩
      obtain ⟨hj1, hj2⟩ := join_clause_core c ti a b hab
      rw [hja, hjb] at hj1 hj2
      have hti : tia = tib := hj1
      subst hti
      exact ih _ _ _ hj2
    · simp only [analyze_join_clauses_loop, hc, if_neg, not_false_iff]
      exact ih _ _ _ hab

theorem where_loop_core (l : List ASTNode) (a b : AnalyzerState)
    (hab : coreEq a b) :
    (analyze_where_clause_loop l a).1 = (analyze_where_clause_loop l b).1 ∧
      coreEq (analyze_where_clause_loop l a).2
        (analyze_where_clause_loop l b).2 := by
  induction l generalizing a b with
  | nil => exact ⟨rfl, hab⟩
  | cons c rest ih =>
    obtain ⟨h1, h2, h3⟩ := hab
    by_cases hc : c.type = ASTNodeType.WHERE_CLAUSE
    · simp only [analyze_where_clause_loop, hc, if_pos, analyze_condition,
        generate_temp]
      exact ⟨by trivial, h1, by simp [h2], h3⟩
    · simp only [analyze_where_clause_loop, hc, if_neg, not_false_iff]
      exact ih _ _ ⟨h1, h2, h3⟩

theorem having_loop_core (l : List ASTNode) (a b : AnalyzerState)
    (hab : coreEq a b) :
    (analyze_having_clause_loop l a).1 = (analyze_having_clause_loop l b).1 ∧
      coreEq (analyze_having_clause_loop l a).2
        (analyze_having_clause_loop l b).2 := by
  induction l generalizing a b with
  | nil => exact ⟨rfl, hab⟩
  | cons c rest ih =>
    obtain ⟨h1, h2, h3⟩ := hab
    by_cases hc : c.type = ASTNodeType.HAVING_CLAUSE
    · simp only [analyze_having_clause_loop, hc, if_pos, analyze_condition,
        generate_temp]
      exact ⟨by trivial, h1, by simp [h2], h3⟩
    · simp only [analyze_having_clause_loop, hc, if_neg, not_false_iff]
      exact ih _ _ ⟨h1, h2, h3⟩

theorem group_loop_core (l : List ASTNode) (gi : GroupInfo)
    (a b : AnalyzerState) (hab : coreEq a b) :
    (analyze_group_by_clause_loop l gi a).1 =
      (analyze_group_by_clause_loop l gi b).1 ∧
    (analyze_group_by_clause_loop l gi a).2.1 =
      (analyze_group_by_clause_loop l gi b).2.1 ∧
    coreEq (analyze_group_by_clause_loop l gi a).2.2
      (analyze_group_by_clause_loop l gi b).2.2 := by
  induction l generalizing gi a b with
  | nil => exact ⟨rfl, rfl, hab⟩
  | cons c rest ih =>
    obtain ⟨h1, h2, h3⟩ := hab
    by_cases hc : c.type = ASTNodeType.GROUP_BY_CLAUSE
    · by_cases hcols :
          collect_group_columns c.children gi.columns = ([] : List (Option String))
      · simp [analyze_group_by_clause_loop, hc, hcols]
        exact ih _ _ _ ⟨h1, h2, h3⟩
      · simp only [analyze_group_by_clause_loop, hc, if_pos, generate_temp]
        rw [if_pos hcols, if_pos hcols]
        cases hj : comma_join (collect_group_columns c.children gi.columns) with
        | error e => exact ⟨by trivial, by trivial, h1, by simp [h2], h3⟩
        | ok joined =>
            simp only [emit, h1, h2, h3]
            exact ih _ _ _ ⟨rfl, rfl, rfl⟩
    · simp only [analyze_group_by_clause_loop, hc, if_neg, not_false_iff]
      exact ih _ _ _ ⟨h1, h2, h3⟩

theorem order_loop_core (l : List ASTNode) (a b : AnalyzerState)
    (hab : coreEq a b) :
    coreEq (analyze_order_by_clause_loop l a)
      (analyze_order_by_clause_loop l b) := by
  induction l generalizing a b with
  | nil => exact hab
  | cons c rest ih =>
    obtain ⟨h1, h2, h3⟩ := hab
    by_cases hc : c.type = ASTNodeType.ORDER_BY_CLAUSE
    · by_cases hs : collect_order_specs c.children [] = ([] : List String)
      · simp only [analyze_order_by_clause_loop, hc, if_pos, hs, ne_eq,
          not_true_eq_false, if_false]
        exact ih _ _ ⟨h1, h2, h3⟩
      · simp only [analyze_order_by_clause_loop, hc, if_pos, generate_temp]
        rw [if_pos hs, if_pos hs]
        simp only [emit, h1, h2, h3]
        exact ih _ _ ⟨rfl, rfl, rfl⟩
    · simp only [analyze_order_by_clause_loop, hc, if_neg, not_false_iff]
      exact ih _ _ ⟨h1, h2, h3⟩

theorem select_stmt_core (node : ASTNode) (a b : AnalyzerState)
    (hab : coreEq a b) :
    (analyze_select_statement node a).1 = (analyze_select_statement node b).1 ∧
      coreEq (analyze_select_statement node a).2
        (analyze_select_statement node b).2 := by
  obtain ⟨h1, h2, h3⟩ := hab
  have hbegin : coreEq (emit (some "BEGIN") Arg.none Arg.none Arg.none a)
      (emit (some "BEGIN") Arg.none Arg.none Arg.none b) := by
    exact ⟨by simp [emit, h1], by simp [emit, h2], by simp [emit, h3]⟩
  rcases hfa : analyze_from_clause node
      (emit (some "BEGIN") Arg.none Arg.none Arg.none a) with ⟨tia, sta₁⟩
  rcases hfb : analyze_from_clause node
      (emit (some "BEGIN") Arg.none Arg.none Arg.none b) with ⟨tib, stb₁⟩
  obtain ⟨hf1, hf2⟩ := from_loop_core node.children
    { main_table := Option.none, tables := [] } _ _ hbegin
  have hf1' : (analyze_from_clause node
      (emit (some "BEGIN") Arg.none Arg.none Arg.none a)).1 =
      (analyze_from_clause node
        (emit (some "BEGIN") Arg.none Arg.none Arg.none b)).1 := hf1
  have hf2' : coreEq (analyze_from_clause node
      (emit (some "BEGIN") Arg.none Arg.none Arg.none a)).2
      (analyze_from_clause node
        (emit (some "BEGIN") Arg.none Arg.none Arg.none b)).2 := hf2
  rw [hfa, hfb] at hf1' hf2'
  have hti : tia = tib := hf1'
  subst hti
  rcases hsa : analyze_select_list node sta₁ with ⟨sia, sta₂⟩
  rcases hsb : analyze_select_list node stb₁ with ⟨sib, stb₂⟩
  obtain ⟨hs1, hs2⟩ := select_list_core node sta₁ stb₁ hf2'
  rw [hsa, hsb] at hs1 hs2
  have hsi : sia = sib := hs1
  subst hsi
  rcases hja : analyze_join_clauses_loop node.children tia sta₂ with ⟨tja, sta₃⟩
  rcases hjb : analyze_join_clauses_loop node.children tia stb₂ with ⟨tjb, stb₃⟩
  obtain ⟨hj1, hj2⟩ := joins_loop_core node.children tia sta₂ stb₂ hs2
  rw [hja, hjb] at hj1 hj2
  have htj : tja = tjb := hj1
  subst htj
  rcases hwa : analyze_where_clause_loop node.children sta₃ with ⟨ewa, sta₄⟩
  rcases hwb : analyze_where_clause_loop node.children stb₃ with ⟨ewb, stb₄⟩
  obtain ⟨hw1, hw2⟩ := where_loop_core node.children sta₃ stb₃ hj2
  rw [hwa, hwb] at hw1 hw2
  have hew : ewa = ewb := hw1
  subst hew
  simp only [analyze_select_statement, hfa, hfb, hsa, hsb, hja, hjb, hwa, hwb]
  cases ewa with
  | error e => exact ⟨rfl, hw2⟩
  | ok u =>
  rcases hga : analyze_group_by_clause_loop node.children
      { columns := [], has_group_by := false } sta₄ with ⟨ega, gia, sta₅⟩
  rcases hgb : analyze_group_by_clause_loop node.children
      { columns := [], has_group_by := false } stb₄ with ⟨egb, gib, stb₅⟩
  obtain ⟨hg1, hg2, hg3⟩ := group_loop_core node.children
    { columns := [], has_group_by := false } sta₄ stb₄ hw2
  rw [hga, hgb] at hg1 hg2 hg3
  have heg : ega = egb := hg1
  subst heg
  simp only [hga, hgb]
  cases ega with
  | error e => exact ⟨rfl, hg3⟩
  | ok u2 =>
  rcases hha : analyze_having_clause_loop node.children sta₅ with ⟨eha, sta₆⟩
  rcases hhb : analyze_having_clause_loop node.children stb₅ with ⟨ehb, stb₆⟩
  obtain ⟨hh1, hh2⟩ := having_loop_core node.children sta₅ stb₅ hg3
  rw [hha, hhb] at hh1 hh2
  have heh : eha = ehb := hh1
  subst heh
  simp only [hha, hhb]
  cases eha with
  | error e => exact ⟨rfl, hh2⟩
  | ok u3 =>
  obtain ⟨ho1, ho2, ho3⟩ := order_loop_core node.children sta₆ stb₆ hh2
  simp only [generate_temp, emit]
  exact ⟨by trivial, by simp [ho1, ho2], by simp [ho1, ho2], by simp [ho3]⟩

/-- Claim C5: `analyze` is deterministic and per-call state is fully reset.
In the pure embedding two runs on the same input are definitionally equal,
so the substantive content is proved in the strongest available form: the
caller-visible result of `analyze` (quadruples plus reported error) computed
from an arbitrary analyzer-instance state — any quadruple buffer, counter
values and accumulated symbol table left by earlier calls — equals the
result on a fresh instance, because the call resets the buffer and both
counters and the output never reads the symbol table.  Temporary numbering
restarts at 1: the reset sets the counter to 0 and `generate_temp` emits
`T(counter+1)`. -/
theorem c5_analyze_resets_state (st0 : AnalyzerState) (ast : ASTNode) :
    (analyze_with st0 ast).1 = (analyze_with init_state ast).1 := by
  unfold analyze_with
  by_cases hty : ast.type = ASTNodeType.SELECT_STMT
  · simp only [hty, if_pos, init_state]
    have hcore : coreEq
        { st0 with quadruples := [], temp_counter := 0, label_counter := 0 }
        (⟨[], [], 0, 0⟩ : AnalyzerState) := ⟨rfl, rfl, rfl⟩
    obtain ⟨hx, hc⟩ := select_stmt_core ast _ _ hcore
    rcases ha : analyze_select_statement ast
        { st0 with quadruples := [], temp_counter := 0, label_counter := 0 }
      with ⟨exa, sta⟩
    rcases hb : analyze_select_statement ast (⟨[], [], 0, 0⟩ : AnalyzerState)
      with ⟨exb, stb⟩
    rw [ha, hb] at hx hc
    have hex : exa = exb := hx
    subst hex
    cases exa with
    | ok u => simp only []; rw [hc.1]
    | error e => rfl
  · simp [hty]

/-! ## Decimal-representation facts

`_generate_temp` builds names with `Nat.repr`; the claims about temporary
names need that `Nat.repr` is injective, which is established here through
the `Nat.digits` round-trip. -/


theorem toDigitsCore_eq_digits (fuel n : Nat) (acc : List Char)
    (hf : n < fuel) (hn : 0 < n) :
    Nat.toDigitsCore 10 fuel n acc =
      ((Nat.digits 10 n).map Nat.digitChar).reverse ++ acc := by
  induction fuel generalizing n acc with
  | zero => omega
  | succ fuel ih =>
    have hdig : Nat.digits 10 n = n % 10 :: Nat.digits 10 (n / 10) :=
      Nat.digits_def' (by norm_num) hn
    by_cases hdz : n / 10 = 0
    · simp only [Nat.toDigitsCore, hdz, if_pos]
      rw [hdig, hdz]
      simp
    · simp only [Nat.toDigitsCore, hdz, if_neg, not_false_iff]
      have hlt : n / 10 < fuel := by
        have := Nat.div_lt_self hn (by norm_num : 1 < 10)
        omega
      rw [ih (n / 10) _ hlt (Nat.pos_of_ne_zero hdz), hdig]
      simp

theorem repr_eq_digits (n : Nat) (hn : 0 < n) :
    Nat.repr n = (((Nat.digits 10 n).map Nat.digitChar).reverse).asString := by
  show (Nat.toDigits 10 n).asString = _
  unfold Nat.toDigits
  rw [toDigitsCore_eq_digits (n + 1) n [] (by omega) hn]
  simp

theorem digitChar_inj_lt : ∀ a < 10, ∀ b < 10,
    Nat.digitChar a = Nat.digitChar b → a = b := by decide

theorem map_digitChar_inj : ∀ (l₁ l₂ : List Nat), (∀ x ∈ l₁, x < 10) →
    (∀ x ∈ l₂, x < 10) →
    l₁.map Nat.digitChar = l₂.map Nat.digitChar → l₁ = l₂ := by
  intro l₁
  induction l₁ with
  | nil =>
    intro l₂ h₁ h₂ h
    cases l₂ with
    | nil => rfl
    | cons y ys => simp at h
  | cons x xs ih =>
    intro l₂ h₁ h₂ h
    cases l₂ with
    | nil => simp at h
    | cons y ys =>
        simp only [List.map_cons, List.cons.injEq] at h
        have hx : x = y := digitChar_inj_lt x
          (h₁ x (List.mem_cons_self _ _)) y (h₂ y (List.mem_cons_self _ _)) h.1
        have hxs : xs = ys := ih ys
          (fun z hz => h₁ z (List.mem_cons_of_mem _ hz))
          (fun z hz => h₂ z (List.mem_cons_of_mem _ hz)) h.2
        rw [hx, hxs]

theorem asString_inj (l₁ l₂ : List Char) (h : l₁.asString = l₂.asString) :
    l₁ = l₂ := by
  have h' : ({ data := l₁ } : String) = { data := l₂ } := by
    simpa [List.asString] using h
  exact congrArg String.data h'

theorem digits_eq_of_repr_eq (m n : Nat) (hm : 0 < m) (hn : 0 < n)
    (h : Nat.repr m = Nat.repr n) : m = n := by
  rw [repr_eq_digits m hm, repr_eq_digits n hn] at h
  have h2 := asString_inj _ _ h
  have h3 := List.reverse_injective h2
  have h4 := map_digitChar_inj _ _
    (fun x hx => Nat.digits_lt_base (by norm_num) hx)
    (fun x hx => Nat.digits_lt_base (by norm_num) hx) h3
  calc m = Nat.ofDigits 10 (Nat.digits 10 m) := (Nat.ofDigits_digits 10 m).symm
    _ = Nat.ofDigits 10 (Nat.digits 10 n) := by rw [h4]
    _ = n := Nat.ofDigits_digits 10 n

theorem repr_pos_ne_repr_zero (n : Nat) (hn : 0 < n)
    (h : Nat.repr n = Nat.repr 0) : False := by
  rw [repr_eq_digits n hn] at h
  have hdata : ((Nat.digits 10 n).map Nat.digitChar).reverse =
      (Nat.repr 0).data := by
    simpa [List.asString] using congrArg String.data h
  have h3 : ((Nat.digits 10 n).map Nat.digitChar).reverse = ['0'] :=
    hdata.trans (by decide)
  have h3' : (Nat.digits 10 n).map Nat.digitChar = ['0'] := by
    have := congrArg List.reverse h3
    simpa using this
  have h4 : Nat.digits 10 n = [0] :=
    map_digitChar_inj (Nat.digits 10 n) [0]
      (fun x hx => Nat.digits_lt_base (by norm_num) hx)
      (by intro x hx; simp at hx; omega) (h3'.trans (by decide))
  have h5 := Nat.ofDigits_digits 10 n
  rw [h4] at h5
  have : n = 0 := by simpa [Nat.ofDigits] using h5.symm
  omega

theorem nat_repr_inj (m n : Nat) (h : Nat.repr m = Nat.repr n) : m = n := by
  rcases Nat.eq_zero_or_pos m with hm | hm <;>
    rcases Nat.eq_zero_or_pos n with hn | hn
  · omega
  · subst hm
    exact (repr_pos_ne_repr_zero n hn h.symm).elim
  · subst hn
    exact (repr_pos_ne_repr_zero m hm h).elim
  · exact digits_eq_of_repr_eq m n hm hn h

theorem string_data_append (a b : String) : (a ++ b).data = a.data ++ b.data := by
  cases a
  cases b
  rfl

theorem string_data_inj (a b : String) (h : a.data = b.data) : a = b := by
  cases a
  cases b
  exact congrArg String.mk h

theorem temp_name_inj (i j : Nat)
    (h : "T" ++ Nat.repr i = "T" ++ Nat.repr j) : i = j := by
  have hd := congrArg String.data h
  rw [string_data_append, string_data_append] at hd
  have hd2 : (Nat.repr i).data = (Nat.repr j).data := by
    simpa using hd
  exact nat_repr_inj i j (string_data_inj _ _ hd2)

theorem gen_temps_spec (k : Nat) (st : AnalyzerState) :
    (gen_temps k st).1 =
      (List.range k).map
        (fun i => "T" ++ Nat.repr (st.temp_counter + i + 1)) := by
  induction k generalizing st with
  | zero => rfl
  | succ k ih =>
    have harith : ∀ i : Nat,
        st.temp_counter + 1 + i + 1 = st.temp_counter + (i + 1) + 1 :=
      fun i => by omega
    simp [gen_temps, generate_temp, ih, List.range_succ_eq_map, List.map_map,
      Function.comp, harith]

/-- Claim C7: within one call to `analyze` — which resets the temp counter
to 0 — the stream of temporaries produced by successive `_generate_temp`
calls is `T1, T2, …`: the `i`-th generated name is `T<i+1>`, so every name
has the form `T<n>` with numeric suffixes starting at 1 and strictly
increasing in generation order, and all generated names are pairwise
distinct as strings. -/
theorem c7_temps_distinct_increasing (k : Nat) (st : AnalyzerState)
    (h : st.temp_counter = 0) :
    (gen_temps k st).1 =
      (List.range k).map (fun i => "T" ++ Nat.repr (i + 1)) ∧
    (gen_temps k st).1.Pairwise (fun s t => s ≠ t) := by
  have hs : (gen_temps k st).1 =
      (List.range k).map (fun i => "T" ++ Nat.repr (i + 1)) := by
    rw [gen_temps_spec, h]
    simp
  refine ⟨hs, ?_⟩
  rw [hs, List.pairwise_map]
  have hlt : (List.range k).Pairwise (· < ·) := List.pairwise_lt_range k
  refine hlt.imp ?_
  intro a b hab heq
  have := temp_name_inj (a + 1) (b + 1) heq
  omega

/-- Witness for C7: the first three temporaries of a fresh pass. -/
theorem c7_witness :
    (gen_temps 3 init_state).1 =
      (List.range 3).map (fun i => "T" ++ Nat.repr (i + 1)) ∧
    (gen_temps 3 init_state).1.Pairwise (fun s t => s ≠ t) :=
  c7_temps_distinct_increasing 3 init_state (by decide)

end DB
